import Mathlib

set_option maxRecDepth 10000

/- Batteries marks the rational arithmetic operations irreducible, which
blocks `decide` on concrete rational computations; restore default
reducibility for this file. -/
attribute [local semireducible] Rat.sub Rat.add Rat.mul Rat.inv

/-!
A shallow embedding of the GCAM total-policy-cost core:
`TotalPolicyCostCalculator` (mac_generator_scenario_runner.cpp) and
`InputDriver::calcEmissionsDriver` (input_driver.cpp), together with proofs
of the specified properties.

Machine doubles are modelled as exact rationals (`ℚ`).  The curve classes
(`XYDataPoint`, `ExplicitPointSet`, `PointSetCurve`), the `Marketplace`
price query and the `Scenario` run interface are external collaborators of
this core (their sources are not part of it); they are modelled from the
specification, as noted on each definition.  The underlying simulation
engine is opaque: it is modelled as an oracle indexed by the number of runs
performed so far, and the driver's interactions with it are recorded in an
explicit event trace.
-/

/-- A single (x, y) sample, mirroring `XYDataPoint`. -/
structure XYDataPoint where
  x : ℚ
  y : ℚ
deriving DecidableEq, Repr

/-- Modelled from the spec: `ExplicitPointSet::addPoint` inserts a sample
while maintaining ascending order of x; a point whose x already exists is
not added (the spec's deterministic duplicate policy). -/
def addPointList (l : List XYDataPoint) (p : XYDataPoint) : List XYDataPoint :=
  match l with
  | [] => [p]
  | q :: rest =>
    if p.x < q.x then p :: q :: rest
    else if p.x = q.x then q :: rest
    else q :: addPointList rest p

/-- Modelled from the spec: `PointSetCurve::getY` evaluates the
piecewise-linear interpolant through the sample points, with flat
extrapolation outside the sampled domain and 0 on an empty point set. -/
def getYPts (x : ℚ) : List XYDataPoint → ℚ
  | [] => 0
  | [p] => p.y
  | p :: q :: rest =>
    if x ≤ p.x then p.y
    else if x ≤ q.x then p.y + (q.y - p.y) * (x - p.x) / (q.x - p.x)
    else getYPts x (q :: rest)

/-- Integral of the linear segment from `p` to `q` over `[lo, hi] ∩ [p.x, q.x]`. -/
def segIntegral (lo hi : ℚ) (p q : XYDataPoint) : ℚ :=
  let a := max lo p.x
  let b := min hi q.x
  if a < b then
    (b - a) * (p.y + (q.y - p.y) / (q.x - p.x) * ((a + b) / 2 - p.x))
  else 0

/-- Modelled from the spec: `PointSetCurve::getIntegral` integrates the
piecewise-linear interpolant over `[lo, hi]` clamped to the sampled
domain (in particular an over-large upper bound is clamped to the last
sample's x). -/
def integralPts (lo hi : ℚ) : List XYDataPoint → ℚ
  | p :: q :: rest => segIntegral lo hi p q + integralPts lo hi (q :: rest)
  | _ => 0

/-- Modelled from the spec: the `Curve` (`PointSetCurve`) data model — an
ordered list of samples plus display metadata (`setTitle`,
`setNumericalLabel` are metadata only). -/
structure PointSetCurve where
  points : List XYDataPoint
  title : String := ""
  numericalLabel : Int := 0
deriving DecidableEq, Repr

def PointSetCurve.getY (c : PointSetCurve) (x : ℚ) : ℚ := getYPts x c.points

def PointSetCurve.getIntegral (c : PointSetCurve) (lo hi : ℚ) : ℚ :=
  integralPts lo hi c.points

/-- Modelled from the spec: `PointSetCurve::getDiscountedValue` discounts
the curve's values over `[lo, hi]` at the given annual rate using the
model's discrete yearly convention (value at year `lo + k` divided by
`(1 + rate) ^ k`). -/
def PointSetCurve.getDiscountedValue (c : PointSetCurve) (lo hi rate : ℚ) : ℚ :=
  (List.range ((Int.floor (hi - lo)).toNat + 1)).foldl
    (fun acc (k : Nat) => acc + c.getY (lo + (k : ℚ)) / (1 + rate) ^ k) 0

/-- The `DBL_MAX` sentinel passed by the source as an unbounded upper
integration limit: the largest IEEE-754 double, exactly. -/
def DBL_MAX : ℚ := ((2 ^ 1024 - 2 ^ 971 : Nat) : ℚ)

/-- `std::map<std::string, const Curve*>` as consumed by the calculator:
an association list keyed by region name. -/
abbrev RegionCurveMap := List (String × PointSetCurve)

/-- Key lookup in an association list (the first matching key wins, as in
`std::map` whose keys are unique). -/
def mapLookup {α : Type} (m : List (String × α)) (k : String) : Option α :=
  match m with
  | [] => none
  | (k1, v) :: rest => if k1 = k then some v else mapLookup rest k

def emptyCurve : PointSetCurve := { points := [] }

/-- `map[ region ]` on a curve map: the stored curve, or the default
(empty) curve when the region is absent.  In the C++ a missing region
yields a null `Curve*` (a fatal region-set-mismatch precondition
violation); theorems that depend on the looked-up curve's value assume
the region is present. -/
def rcGet (m : RegionCurveMap) (r : String) : PointSetCurve :=
  (mapLookup m r).getD emptyCurve

def mapKeys {α : Type} (m : List (String × α)) : List String := m.map Prod.fst

/-- `map[ key ] = value` on an association list: replace the first binding
of the key in place, or append a new binding. -/
def mapInsert {α : Type} (m : List (String × α)) (k : String) (v : α) :
    List (String × α) :=
  match m with
  | [] => [(k, v)]
  | (k1, v1) :: rest => if k1 = k then (k, v) :: rest else (k1, v1) :: mapInsert rest k v

/-- The `Modeltime` interface consumed by the calculator. -/
structure Modeltime where
  maxper : Nat
  perToYr : Nat → Int
  endYear : Int

/-- Modelled from the spec: the Simulation Facade (`Scenario`,
`Marketplace`) as consumed by this core.  The engine is opaque, so its
post-run queries are an oracle indexed by the number of runs performed so
far: index 0 is the state holding the baseline (original policy) results,
and index `n + 1` is the state after the `n`-th sweep run.  `getPrice`
returns `none` for `Marketplace::NO_MARKET_PRICE`. -/
structure Scenario where
  modeltime : Modeltime
  getPrice : String → String → Nat → Option ℚ
  emissionsQCurves : Nat → String → RegionCurveMap
  emissionsTCurves : Nat → String → RegionCurveMap
  runSuccess : Nat → Bool

/-- One observable interaction of the driver with the Simulation Facade. -/
inductive SimEvent where
  | setTax (gas region : String) (taxes : List ℚ)
  | run (tag : Nat)
deriving DecidableEq, Repr

/-- The configuration values read by the calculator (defaults: gas "CO2",
5 sweep points, discount rate 0.05, discount start year 2005). -/
structure Configuration where
  abatedGas : String
  numPoints : Nat
  discountRate : ℚ
  discountStartYear : Int

/-- The calendar year of a period, as a rational. -/
def periodYear (s : Scenario) (per : Nat) : ℚ := (s.modeltime.perToYr per : ℚ)

/-- The state owned by `TotalPolicyCostCalculator`. -/
structure TotalPolicyCostCalculator where
  mGHGName : String
  mNumPoints : Nat
  mEmissionsQCurves : List RegionCurveMap
  mEmissionsTCurves : List RegionCurveMap
  mPeriodCostCurves : List RegionCurveMap
  mRegionalCostCurves : RegionCurveMap
  mRegionalCosts : List (String × ℚ)
  mRegionalDiscountedCosts : List (String × ℚ)
  mGlobalCost : ℚ
  mGlobalDiscountedCost : ℚ
  mRanCosts : Bool

/-- The constructor `TotalPolicyCostCalculator::TotalPolicyCostCalculator`:
zero global costs, `mRanCosts = false`, gas name and point count from the
configuration. -/
def TotalPolicyCostCalculator.create (conf : Configuration) : TotalPolicyCostCalculator :=
  { mGHGName := conf.abatedGas
    mNumPoints := conf.numPoints
    mEmissionsQCurves := []
    mEmissionsTCurves := []
    mPeriodCostCurves := []
    mRegionalCostCurves := []
    mRegionalCosts := []
    mRegionalDiscountedCosts := []
    mGlobalCost := 0
    mGlobalDiscountedCost := 0
    mRanCosts := false }

/-- The per-period fixed taxes computed for one region in `runTrials`:
`currTaxes[ per ] = baselineTaxCurve.getY( year( per ) ) * fraction`. -/
def trialTaxes (s : Scenario) (curve : PointSetCurve) (fraction : ℚ) : List ℚ :=
  (List.range s.modeltime.maxper).map
    (fun per => curve.getY (periodYear s per) * fraction)

/-- The `setTax` calls issued for one trial: one per region of the stored
baseline emissions-price map. -/
def setTaxEvents (s : Scenario) (gas : String) (baseT : RegionCurveMap) (fraction : ℚ) :
    List SimEvent :=
  baseT.map (fun e => SimEvent.setTax gas e.1 (trialTaxes s e.2 fraction))

/-- Intermediate state threaded through the `runTrials` loop. -/
structure TrialsState where
  success : Bool
  qarr : List RegionCurveMap
  tarr : List RegionCurveMap
  runsDone : Nat
  trace : List SimEvent

/-- The body of `TotalPolicyCostCalculator::runTrials`, iterating over the
remaining trial numbers: compute `fraction = currPoint / mNumPoints`, set
each region's fixed taxes, run the scenario tagged with the trial number,
AND the success flag, and snapshot the post-run emissions quantity and
price curves at index `currPoint`. -/
def runTrialsFrom (s : Scenario) (gas : String) (numPoints : Nat) (baseT : RegionCurveMap) :
    List Nat → TrialsState → TrialsState
  | [], st => st
  | currPoint :: rest, st =>
    runTrialsFrom s gas numPoints baseT rest
      { success := st.success && s.runSuccess st.runsDone
        qarr := st.qarr.set currPoint (s.emissionsQCurves (st.runsDone + 1) gas)
        tarr := st.tarr.set currPoint (s.emissionsTCurves (st.runsDone + 1) gas)
        runsDone := st.runsDone + 1
        trace := st.trace ++
          setTaxEvents s gas baseT ((currPoint : ℚ) / (numPoints : ℚ)) ++
          [SimEvent.run currPoint] }

/-- `TotalPolicyCostCalculator::runTrials`: sweep trial numbers
`0 .. mNumPoints - 1`, reading the baseline tax curves from the stored
index `mNumPoints`.  Returns the AND of the run success flags, the updated
calculator and the interaction trace. -/
def TotalPolicyCostCalculator.runTrials (s : Scenario) (c : TotalPolicyCostCalculator) :
    Bool × TotalPolicyCostCalculator × List SimEvent :=
  let baseT := c.mEmissionsTCurves.getD c.mNumPoints []
  let st := runTrialsFrom s c.mGHGName c.mNumPoints baseT (List.range c.mNumPoints)
    { success := true
      qarr := c.mEmissionsQCurves
      tarr := c.mEmissionsTCurves
      runsDone := 0
      trace := [] }
  (st.success, { c with mEmissionsQCurves := st.qarr, mEmissionsTCurves := st.tarr },
    st.trace)

/-- The period cost curve built for one region in
`createCostCurvesByPeriod`: one point per trial `0 .. mNumPoints`, with
x = trial-0 quantity minus trial quantity at the period's year (the
source reads the reference quantity from `mEmissionsQCurves[ 0 ]`) and
y = the trial's emissions price at that year. -/
def periodCostCurveFor (qarr tarr : List RegionCurveMap) (numPoints : Nat) (year : ℚ)
    (per : Nat) (region : String) (q0curve : PointSetCurve) : PointSetCurve :=
  { points :=
      ((List.range (numPoints + 1)).map
        (fun trial =>
          ({ x := q0curve.getY year - (rcGet (qarr.getD trial []) region).getY year
             y := (rcGet (tarr.getD trial []) region).getY year } : XYDataPoint))).foldl
        addPointList []
    title := region ++ " period cost curve"
    numericalLabel := (per : Int) }

/-- The full period-indexed family of cost-curve maps built by
`createCostCurvesByPeriod`: for each period, one entry per region present
in `mEmissionsQCurves[ 0 ]`. -/
def periodCurvesOf (s : Scenario) (numPoints : Nat) (qarr tarr : List RegionCurveMap) :
    List RegionCurveMap :=
  (List.range s.modeltime.maxper).map (fun per =>
    (qarr.getD 0 []).map (fun e =>
      (e.1, periodCostCurveFor qarr tarr numPoints (periodYear s per) per e.1 e.2)))

/-- `TotalPolicyCostCalculator::createCostCurvesByPeriod`. -/
def createCostCurvesByPeriod (s : Scenario) (c : TotalPolicyCostCalculator) :
    TotalPolicyCostCalculator :=
  { c with mPeriodCostCurves :=
      periodCurvesOf s c.mNumPoints c.mEmissionsQCurves c.mEmissionsTCurves }

/-- The per-region year-to-cost curve built by
`createRegionalCostCurves`: one point per period, at the period's calendar
year, whose value is the period cost curve's integral from 0 to
`DBL_MAX`. -/
def regionYearCurve (s : Scenario) (periodCurves : List RegionCurveMap) (region : String) :
    PointSetCurve :=
  { points :=
      ((List.range s.modeltime.maxper).map
        (fun per =>
          ({ x := periodYear s per
             y := (rcGet (periodCurves.getD per []) region).getIntegral 0 DBL_MAX } :
            XYDataPoint))).foldl
        addPointList []
    title := region
    numericalLabel := 0 }

/-- One iteration of the region loop of `createRegionalCostCurves`: skip
the region literally named "global", otherwise store the region's
year-cost curve, its integral over `[startYear, endYear]` and its
discounted value, and accumulate both into the global totals. -/
def regionalStep (conf : Configuration) (s : Scenario)
    (periodCurves : List RegionCurveMap) (acc : TotalPolicyCostCalculator)
    (entry : String × PointSetCurve) : TotalPolicyCostCalculator :=
  if entry.1 = "global" then acc
  else
    let regCostCurve := regionYearCurve s periodCurves entry.1
    let startYear : ℚ := (conf.discountStartYear : ℚ)
    let endYear : ℚ := (s.modeltime.endYear : ℚ)
    let regionalCost := regCostCurve.getIntegral startYear endYear
    let discounted := regCostCurve.getDiscountedValue startYear endYear conf.discountRate
    { acc with
      mRegionalCostCurves := mapInsert acc.mRegionalCostCurves entry.1 regCostCurve
      mRegionalCosts := mapInsert acc.mRegionalCosts entry.1 regionalCost
      mRegionalDiscountedCosts := mapInsert acc.mRegionalDiscountedCosts entry.1 discounted
      mGlobalCost := acc.mGlobalCost + regionalCost
      mGlobalDiscountedCost := acc.mGlobalDiscountedCost + discounted }

/-- `TotalPolicyCostCalculator::createRegionalCostCurves`: iterate over the
regions of `mPeriodCostCurves[ 0 ]`. -/
def createRegionalCostCurves (conf : Configuration) (s : Scenario)
    (c : TotalPolicyCostCalculator) : TotalPolicyCostCalculator :=
  (c.mPeriodCostCurves.getD 0 []).foldl (regionalStep conf s c.mPeriodCostCurves) c

/-- `std::vector::resize( n )`: keep the first `n` elements, padding with
default-constructed (empty) maps. -/
def resizeTo (n : Nat) (l : List RegionCurveMap) : List RegionCurveMap :=
  (List.range n).map (fun i => l.getD i [])

/-- `TotalPolicyCostCalculator::calculateAbatementCostCurve`: if the
marketplace reports no price for the policy market of region "USA" at
period 1, skip everything and return `true`; otherwise store the baseline
curves at trial index `mNumPoints`, run the trials, build the period and
regional cost curves, set `mRanCosts` and return whether all runs
succeeded.  The returned list is the facade interaction trace. -/
def calculateAbatementCostCurve (conf : Configuration) (s : Scenario)
    (c : TotalPolicyCostCalculator) : Bool × TotalPolicyCostCalculator × List SimEvent :=
  if (s.getPrice c.mGHGName "USA" 1).isNone then
    (true, c, [])
  else
    let c1 := { c with
      mEmissionsQCurves :=
        (resizeTo (c.mNumPoints + 1) c.mEmissionsQCurves).set c.mNumPoints
          (s.emissionsQCurves 0 c.mGHGName)
      mEmissionsTCurves :=
        (resizeTo (c.mNumPoints + 1) c.mEmissionsTCurves).set c.mNumPoints
          (s.emissionsTCurves 0 c.mGHGName) }
    let r := TotalPolicyCostCalculator.runTrials s c1
    let c3 := createCostCurvesByPeriod s r.2.1
    let c4 := createRegionalCostCurves conf s c3
    (r.1, { c4 with mRanCosts := true }, r.2.2)

/-- The result data serialized by `printOutput` when it does produce
output. -/
structure CostCurvesOutput where
  periodCostCurves : List RegionCurveMap
  regionalCostCurves : RegionCurveMap
  regionalCosts : List (String × ℚ)
  regionalDiscountedCosts : List (String × ℚ)
  globalCost : ℚ
  globalDiscountedCost : ℚ
deriving DecidableEq, Repr

/-- `TotalPolicyCostCalculator::printOutput`: a no-op (`none`) unless
`mRanCosts` is set; otherwise it serializes the stored results. -/
def printOutput (c : TotalPolicyCostCalculator) : Option CostCurvesOutput :=
  if c.mRanCosts then
    some { periodCostCurves := c.mPeriodCostCurves
           regionalCostCurves := c.mRegionalCostCurves
           regionalCosts := c.mRegionalCosts
           regionalDiscountedCosts := c.mRegionalDiscountedCosts
           globalCost := c.mGlobalCost
           globalDiscountedCost := c.mGlobalDiscountedCost }
  else none

/-- An `IInput` as consumed by `InputDriver::calcEmissionsDriver`: only its
name and per-period physical demand are used. -/
structure IInput where
  name : String
  physicalDemand : Nat → ℚ

/-- An `IOutput`; `calcEmissionsDriver` never inspects its outputs. -/
structure IOutput where
  name : String

/-- Modelled from the spec: `FunctionUtils::getInput` (functions/, not part
of this core's sources) looks an input up by name in the input vector,
returning null (`none`) when no input has that name. -/
def FunctionUtils.getInput (aInputs : List IInput) (aName : String) : Option IInput :=
  aInputs.find? (fun i => i.name == aName)

/-- `InputDriver`: its only datum is the driving input's name. -/
structure InputDriver where
  mInputName : String

/-- `InputDriver::calcEmissionsDriver`: the looked-up input's physical
demand for the period, or 0.0 when the lookup returns null. -/
def InputDriver.calcEmissionsDriver (d : InputDriver) (aInputs : List IInput)
    (_aOutputs : List IOutput) (aPeriod : Nat) : ℚ :=
  match FunctionUtils.getInput aInputs d.mInputName with
  | some inputToDrive => inputToDrive.physicalDemand aPeriod
  | none => 0

/-! ### Lemmas about the curve point-set operations -/

/-- A point list in strictly ascending x order — the `Curve` invariant. -/
def PointsSorted (l : List XYDataPoint) : Prop :=
  List.Chain' (fun p q => p.x < q.x) l

instance (l : List XYDataPoint) : Decidable (PointsSorted l) := by
  unfold PointsSorted; infer_instance

theorem addPointList_head? (l : List XYDataPoint) (p : XYDataPoint) :
    (addPointList l p).head? = some p ∨ (addPointList l p).head? = l.head? := by
  cases l with
  | nil => left; rfl
  | cons q rest =>
    by_cases h1 : p.x < q.x
    · left; simp [addPointList, h1]
    · by_cases h2 : p.x = q.x
      · right; simp [addPointList, h1, h2]
      · right; simp [addPointList, h1, h2]

theorem pointsSorted_addPointList {l : List XYDataPoint} (p : XYDataPoint)
    (h : PointsSorted l) : PointsSorted (addPointList l p) := by
  induction l with
  | nil => simp [addPointList, PointsSorted]
  | cons q rest ih =>
    rw [show addPointList (q :: rest) p =
        (if p.x < q.x then p :: q :: rest
         else if p.x = q.x then q :: rest
         else q :: addPointList rest p) from rfl]
    by_cases h1 : p.x < q.x
    · simp only [if_pos h1]
      exact List.chain'_cons.mpr ⟨h1, h⟩
    · by_cases h2 : p.x = q.x
      · simp only [if_neg h1, if_pos h2]; exact h
      · simp only [if_neg h1, if_neg h2]
        have hq : q.x < p.x := by
          rcases lt_trichotomy p.x q.x with hlt | heq | hgt
          · exact absurd hlt h1
          · exact absurd heq h2
          · exact hgt
        have hrest : PointsSorted rest := h.tail
        have htail : PointsSorted (addPointList rest p) := ih hrest
        apply List.chain'_cons'.mpr
        refine ⟨?_, htail⟩
        intro y hy
        rcases addPointList_head? rest p with hcase | hcase
        · rw [hcase] at hy
          cases hy; exact hq
        · rw [hcase] at hy
          cases rest with
          | nil => simp at hy
          | cons r rr =>
            cases hy
            exact (List.chain'_cons.mp h).1

theorem addPointList_perm_of_fresh {l : List XYDataPoint} {p : XYDataPoint}
    (h : p.x ∉ l.map XYDataPoint.x) : (addPointList l p).Perm (p :: l) := by
  induction l with
  | nil => simp [addPointList]
  | cons q rest ih =>
    have hne : p.x ≠ q.x := by
      intro heq; exact h (by simp [heq])
    have hrest : p.x ∉ rest.map XYDataPoint.x := by
      intro hmem; exact h (by simp [hmem])
    rw [show addPointList (q :: rest) p =
        (if p.x < q.x then p :: q :: rest
         else if p.x = q.x then q :: rest
         else q :: addPointList rest p) from rfl]
    by_cases h1 : p.x < q.x
    · simp only [if_pos h1]
      exact List.Perm.refl _
    · simp only [if_neg h1, if_neg hne]
      exact ((ih hrest).cons q).trans (List.Perm.swap p q rest)

theorem foldl_addPointList_perm :
    ∀ (pts acc : List XYDataPoint),
      (acc.map XYDataPoint.x ++ pts.map XYDataPoint.x).Nodup →
      (pts.foldl addPointList acc).Perm (acc ++ pts) := by
  intro pts
  induction pts with
  | nil => intro acc _; simp
  | cons p rest ih =>
    intro acc h
    have hparts := List.nodup_append.mp (by simpa using h)
    have hfresh : p.x ∉ acc.map XYDataPoint.x := by
      intro hmem
      exact hparts.2.2 hmem (by simp)
    have hperm : (addPointList acc p).Perm (p :: acc) := addPointList_perm_of_fresh hfresh
    have hnodup2 :
        ((addPointList acc p).map XYDataPoint.x ++ rest.map XYDataPoint.x).Nodup := by
      have hmid : (p.x :: (acc.map XYDataPoint.x ++ rest.map XYDataPoint.x)).Nodup :=
        List.perm_middle.nodup (by simpa using h)
      have hp3 : ((addPointList acc p).map XYDataPoint.x ++ rest.map XYDataPoint.x).Perm
          (p.x :: (acc.map XYDataPoint.x ++ rest.map XYDataPoint.x)) := by
        simpa using (hperm.map XYDataPoint.x).append_right (rest.map XYDataPoint.x)
      exact hp3.symm.nodup hmid
    have hstep := ih (addPointList acc p) hnodup2
    show (rest.foldl addPointList (addPointList acc p)).Perm (acc ++ p :: rest)
    exact hstep.trans ((hperm.append_right rest).trans List.perm_middle.symm)

theorem foldl_addPointList_sorted :
    ∀ (pts acc : List XYDataPoint), PointsSorted acc →
      PointsSorted (pts.foldl addPointList acc) := by
  intro pts
  induction pts with
  | nil => intro acc h; exact h
  | cons p rest ih =>
    intro acc h
    exact ih (addPointList acc p) (pointsSorted_addPointList p h)

/-! ### Lemmas about the association-list map operations -/

theorem mapLookup_mapInsert_self {α : Type} (m : List (String × α)) (k : String) (v : α) :
    mapLookup (mapInsert m k v) k = some v := by
  induction m with
  | nil => simp [mapInsert, mapLookup]
  | cons e rest ih =>
    obtain ⟨k1, v1⟩ := e
    by_cases h : k1 = k
    · simp [mapInsert, mapLookup, h]
    · simp [mapInsert, mapLookup, h, ih]

theorem mapLookup_mapInsert_ne {α : Type} (m : List (String × α)) (k k' : String) (v : α)
    (h : k' ≠ k) : mapLookup (mapInsert m k v) k' = mapLookup m k' := by
  induction m with
  | nil => simp [mapInsert, mapLookup, Ne.symm h]
  | cons e rest ih =>
    obtain ⟨k1, v1⟩ := e
    by_cases h1 : k1 = k
    · subst h1
      simp [mapInsert, mapLookup, Ne.symm h]
    · simp only [mapInsert, if_neg h1]
      by_cases h2 : k1 = k'
      · simp [mapLookup, h2]
      · simp [mapLookup, h2, ih]

theorem mapInsert_eq_self {α : Type} (m : List (String × α)) (k : String) (v : α)
    (h : mapLookup m k = some v) : mapInsert m k v = m := by
  induction m with
  | nil => simp [mapLookup] at h
  | cons e rest ih =>
    obtain ⟨k1, v1⟩ := e
    by_cases h1 : k1 = k
    · subst h1
      have hv : v1 = v := by simpa [mapLookup] using h
      simp [mapInsert, hv]
    · simp only [mapLookup, if_neg h1] at h
      simp [mapInsert, h1, ih h]

theorem mapInsert_of_fresh {α : Type} (m : List (String × α)) (k : String) (v : α)
    (h : k ∉ mapKeys m) : mapInsert m k v = m ++ [(k, v)] := by
  induction m with
  | nil => simp [mapInsert]
  | cons e rest ih =>
    obtain ⟨k1, v1⟩ := e
    have h1 : k1 ≠ k := by
      intro he; exact h (by simp [mapKeys, he])
    have h2 : k ∉ mapKeys rest := by
      intro hm; exact h (by simp [mapKeys] at hm ⊢; right; exact hm)
    simp [mapInsert, h1, ih h2]

theorem mapLookup_eq_none_of_not_mem {α : Type} (m : List (String × α)) (k : String)
    (h : k ∉ mapKeys m) : mapLookup m k = none := by
  induction m with
  | nil => rfl
  | cons e rest ih =>
    obtain ⟨k1, v1⟩ := e
    have h1 : k1 ≠ k := by
      intro he; exact h (by simp [mapKeys, he])
    have h2 : k ∉ mapKeys rest := by
      intro hm; exact h (by simp [mapKeys] at hm ⊢; right; exact hm)
    simp [mapLookup, h1, ih h2]

theorem mapLookup_mem {α : Type} (m : List (String × α)) (k : String) (v : α)
    (h : mapLookup m k = some v) : (k, v) ∈ m := by
  induction m with
  | nil => simp [mapLookup] at h
  | cons e rest ih =>
    obtain ⟨k1, v1⟩ := e
    by_cases h1 : k1 = k
    · subst h1
      have hv : v1 = v := by simpa [mapLookup] using h
      simp [hv]
    · simp only [mapLookup, if_neg h1] at h
      simp [ih h]

theorem mapLookup_isSome_of_mem_keys {α : Type} (m : List (String × α)) (k : String)
    (h : k ∈ mapKeys m) : ∃ v, mapLookup m k = some v := by
  induction m with
  | nil => simp [mapKeys] at h
  | cons e rest ih =>
    obtain ⟨k1, v1⟩ := e
    by_cases h1 : k1 = k
    · exact ⟨v1, by simp [mapLookup, h1]⟩
    · have h2 : k ∈ mapKeys rest := by
        simp [mapKeys] at h
        rcases h with he | hm
        · exact absurd he.symm h1
        · simpa [mapKeys] using hm
      obtain ⟨v, hv⟩ := ih h2
      exact ⟨v, by simp [mapLookup, h1, hv]⟩

theorem mapLookup_map_entry {α β : Type} (f : String → α → β) (m : List (String × α))
    (k : String) :
    mapLookup (m.map (fun e => (e.1, f e.1 e.2))) k = (mapLookup m k).map (f k) := by
  induction m with
  | nil => rfl
  | cons e rest ih =>
    obtain ⟨k1, v1⟩ := e
    by_cases h1 : k1 = k
    · subst h1
      simp [mapLookup]
    · simp [mapLookup, h1, ih]

theorem mapKeys_map_entry {α β : Type} (f : String → α → β) (m : List (String × α)) :
    mapKeys (m.map (fun e => (e.1, f e.1 e.2))) = mapKeys m := by
  cases m with
  | nil => rfl
  | cons e rest => simp [mapKeys]

/-- Folding fresh-keyed inserts over an association list appends the new
bindings in order. -/
theorem foldl_mapInsert_fresh {α : Type} (f : String → α) :
    ∀ (ks : List String) (m : List (String × α)),
      (mapKeys m ++ ks).Nodup →
      ks.foldl (fun acc k => mapInsert acc k (f k)) m = m ++ ks.map (fun k => (k, f k)) := by
  intro ks
  induction ks with
  | nil => intro m _; simp
  | cons k rest ih =>
    intro m h
    have hparts := List.nodup_append.mp h
    have hfresh : k ∉ mapKeys m := by
      intro hmem
      exact hparts.2.2 hmem (by simp)
    have hstep : mapInsert m k (f k) = m ++ [(k, f k)] := mapInsert_of_fresh m k (f k) hfresh
    have hnodup2 : (mapKeys (m ++ [(k, f k)]) ++ rest).Nodup := by
      have : mapKeys (m ++ [(k, f k)]) ++ rest = mapKeys m ++ (k :: rest) := by
        simp [mapKeys]
      rw [this]
      exact h
    show rest.foldl (fun acc k => mapInsert acc k (f k)) (mapInsert m k (f k)) =
      m ++ (k, f k) :: rest.map (fun k => (k, f k))
    rw [hstep, ih (m ++ [(k, f k)]) hnodup2]
    simp

/-- Folding inserts whose key already binds exactly the inserted value is
the identity. -/
theorem foldl_mapInsert_id {α : Type} (f : String → α) :
    ∀ (ks : List String) (m : List (String × α)),
      (∀ k ∈ ks, mapLookup m k = some (f k)) →
      ks.foldl (fun acc k => mapInsert acc k (f k)) m = m := by
  intro ks
  induction ks with
  | nil => intro m _; rfl
  | cons k rest ih =>
    intro m h
    have hstep : mapInsert m k (f k) = m := mapInsert_eq_self m k (f k) (h k (by simp))
    show rest.foldl (fun acc k => mapInsert acc k (f k)) (mapInsert m k (f k)) = m
    rw [hstep]
    exact ih m (fun k2 hk2 => h k2 (by simp [hk2]))

/-! ### Lemmas about the trial sweep -/

/-- The facade interactions of a sweep over a list of trial numbers: each
trial's `setTax` calls followed by its tagged run. -/
def sweepBlocks (s : Scenario) (gas : String) (numPoints : Nat) (baseT : RegionCurveMap) :
    List Nat → List SimEvent
  | [] => []
  | t :: rest =>
    setTaxEvents s gas baseT ((t : ℚ) / (numPoints : ℚ)) ++
      SimEvent.run t :: sweepBlocks s gas numPoints baseT rest

theorem runTrialsFrom_trace (s : Scenario) (gas : String) (numPoints : Nat)
    (baseT : RegionCurveMap) :
    ∀ (pts : List Nat) (st : TrialsState),
      (runTrialsFrom s gas numPoints baseT pts st).trace =
        st.trace ++ sweepBlocks s gas numPoints baseT pts := by
  intro pts
  induction pts with
  | nil => intro st; simp [runTrialsFrom, sweepBlocks]
  | cons t rest ih =>
    intro st
    simp only [runTrialsFrom, sweepBlocks]
    rw [ih]
    simp [List.append_assoc]

theorem runTrialsFrom_runsDone (s : Scenario) (gas : String) (numPoints : Nat)
    (baseT : RegionCurveMap) :
    ∀ (pts : List Nat) (st : TrialsState),
      (runTrialsFrom s gas numPoints baseT pts st).runsDone = st.runsDone + pts.length := by
  intro pts
  induction pts with
  | nil => intro st; simp [runTrialsFrom]
  | cons t rest ih =>
    intro st
    simp only [runTrialsFrom]
    rw [ih]
    simp only [List.length_cons]
    omega

theorem runTrialsFrom_success (s : Scenario) (gas : String) (numPoints : Nat)
    (baseT : RegionCurveMap) :
    ∀ (pts : List Nat) (st : TrialsState),
      (runTrialsFrom s gas numPoints baseT pts st).success =
        (st.success &&
          (List.range pts.length).all (fun i => s.runSuccess (st.runsDone + i))) := by
  intro pts
  induction pts with
  | nil => intro st; simp [runTrialsFrom]
  | cons t rest ih =>
    intro st
    simp only [runTrialsFrom]
    rw [ih]
    simp only [List.length_cons, List.range_succ_eq_map, List.all_cons, List.all_map]
    have harith : ∀ i : Nat, st.runsDone + 1 + i = st.runsDone + (i + 1) := by omega
    simp only [Function.comp, harith, Nat.add_zero, Bool.and_assoc, Nat.succ_eq_add_one]
    rfl

theorem runTrialsFrom_qarr (s : Scenario) (gas : String) (numPoints : Nat)
    (baseT : RegionCurveMap) :
    ∀ (k a : Nat) (st : TrialsState), st.runsDone = a →
      ∀ t, ((runTrialsFrom s gas numPoints baseT (List.range' a k) st).qarr)[t]? =
        if a ≤ t ∧ t < a + k ∧ t < st.qarr.length
        then some (s.emissionsQCurves (t + 1) gas)
        else st.qarr[t]? := by
  intro k
  induction k with
  | zero =>
    intro a st _ t
    have hcond : ¬(a ≤ t ∧ t < a ∧ t < st.qarr.length) := by omega
    simp [List.range', runTrialsFrom, hcond]
  | succ n ih =>
    intro a st h t
    rw [List.range'_succ]
    simp only [runTrialsFrom]
    rw [ih (a + 1) _ (by simp [h]) t]
    simp only [List.length_set, h]
    by_cases ht : t = a
    · subst ht
      have hc1 : ¬(t + 1 ≤ t ∧ t < t + 1 + n ∧ t < st.qarr.length) := by omega
      rw [if_neg hc1]
      by_cases hlen : t < st.qarr.length
      · have hc2 : t ≤ t ∧ t < t + (n + 1) ∧ t < st.qarr.length := by omega
        rw [if_pos hc2]
        simp [List.getElem?_set, hlen]
      · have hc2 : ¬(t ≤ t ∧ t < t + (n + 1) ∧ t < st.qarr.length) := by omega
        rw [if_neg hc2]
        simp only [List.getElem?_set, if_pos rfl, if_neg hlen]
        rw [List.getElem?_eq_none (by omega)]
        simp
    · have hset : (st.qarr.set a (s.emissionsQCurves (a + 1) gas))[t]? = st.qarr[t]? := by
        simp [List.getElem?_set, Ne.symm ht]
      rw [hset]
      by_cases hc : a ≤ t ∧ t < a + (n + 1) ∧ t < st.qarr.length
      · have hc1 : a + 1 ≤ t ∧ t < a + 1 + n ∧ t < st.qarr.length := by omega
        rw [if_pos hc1, if_pos hc]
      · have hc1 : ¬(a + 1 ≤ t ∧ t < a + 1 + n ∧ t < st.qarr.length) := by omega
        rw [if_neg hc1, if_neg hc]

theorem runTrialsFrom_tarr (s : Scenario) (gas : String) (numPoints : Nat)
    (baseT : RegionCurveMap) :
    ∀ (k a : Nat) (st : TrialsState), st.runsDone = a →
      ∀ t, ((runTrialsFrom s gas numPoints baseT (List.range' a k) st).tarr)[t]? =
        if a ≤ t ∧ t < a + k ∧ t < st.tarr.length
        then some (s.emissionsTCurves (t + 1) gas)
        else st.tarr[t]? := by
  intro k
  induction k with
  | zero =>
    intro a st _ t
    have hcond : ¬(a ≤ t ∧ t < a ∧ t < st.tarr.length) := by omega
    simp [List.range', runTrialsFrom, hcond]
  | succ n ih =>
    intro a st h t
    rw [List.range'_succ]
    simp only [runTrialsFrom]
    rw [ih (a + 1) _ (by simp [h]) t]
    simp only [List.length_set, h]
    by_cases ht : t = a
    · subst ht
      have hc1 : ¬(t + 1 ≤ t ∧ t < t + 1 + n ∧ t < st.tarr.length) := by omega
      rw [if_neg hc1]
      by_cases hlen : t < st.tarr.length
      · have hc2 : t ≤ t ∧ t < t + (n + 1) ∧ t < st.tarr.length := by omega
        rw [if_pos hc2]
        simp [List.getElem?_set, hlen]
      · have hc2 : ¬(t ≤ t ∧ t < t + (n + 1) ∧ t < st.tarr.length) := by omega
        rw [if_neg hc2]
        simp only [List.getElem?_set, if_pos rfl, if_neg hlen]
        rw [List.getElem?_eq_none (by omega)]
        simp
    · have hset : (st.tarr.set a (s.emissionsTCurves (a + 1) gas))[t]? = st.tarr[t]? := by
        simp [List.getElem?_set, Ne.symm ht]
      rw [hset]
      by_cases hc : a ≤ t ∧ t < a + (n + 1) ∧ t < st.tarr.length
      · have hc1 : a + 1 ≤ t ∧ t < a + 1 + n ∧ t < st.tarr.length := by omega
        rw [if_pos hc1, if_pos hc]
      · have hc1 : ¬(a + 1 ≤ t ∧ t < a + 1 + n ∧ t < st.tarr.length) := by omega
        rw [if_neg hc1, if_neg hc]

/-- The run tag carried by an event, when the event is a run. -/
def runTag : SimEvent → Option Nat
  | SimEvent.run t => some t
  | SimEvent.setTax _ _ _ => none

theorem filterMap_runTag_setTaxEvents (s : Scenario) (gas : String)
    (baseT : RegionCurveMap) (fraction : ℚ) :
    (setTaxEvents s gas baseT fraction).filterMap runTag = [] := by
  unfold setTaxEvents
  induction baseT with
  | nil => rfl
  | cons e rest ih => simp [runTag] at ih ⊢

theorem filterMap_runTag_sweepBlocks (s : Scenario) (gas : String) (numPoints : Nat)
    (baseT : RegionCurveMap) :
    ∀ pts : List Nat, (sweepBlocks s gas numPoints baseT pts).filterMap runTag = pts := by
  intro pts
  induction pts with
  | nil => rfl
  | cons t rest ih =>
    simp [sweepBlocks, List.filterMap_append, filterMap_runTag_setTaxEvents, runTag, ih]

theorem resizeTo_length (n : Nat) (l : List RegionCurveMap) : (resizeTo n l).length = n := by
  simp [resizeTo]

theorem set_getD_self (l : List RegionCurveMap) (n : Nat) (v : RegionCurveMap)
    (h : n < l.length) : (l.set n v).getD n [] = v := by
  rw [List.getD_eq_getElem?_getD, List.getElem?_set, if_pos rfl, if_pos h]
  rfl

/-- The emissions-quantity snapshots held by the calculator after a full
sweep: trials `t < N` hold the state after their run, index `N` holds the
baseline. -/
def sweepFinalQ (s : Scenario) (gas : String) (N : Nat) : List RegionCurveMap :=
  (List.range (N + 1)).map (fun t =>
    if t < N then s.emissionsQCurves (t + 1) gas else s.emissionsQCurves 0 gas)

/-- The emissions-price snapshots held by the calculator after a full
sweep. -/
def sweepFinalT (s : Scenario) (gas : String) (N : Nat) : List RegionCurveMap :=
  (List.range (N + 1)).map (fun t =>
    if t < N then s.emissionsTCurves (t + 1) gas else s.emissionsTCurves 0 gas)

theorem sweepFinalQ_getD (s : Scenario) (gas : String) (N t : Nat) (h : t < N + 1) :
    (sweepFinalQ s gas N).getD t [] =
      if t < N then s.emissionsQCurves (t + 1) gas else s.emissionsQCurves 0 gas := by
  unfold sweepFinalQ
  rw [List.getD_eq_getElem?_getD, List.getElem?_map, List.getElem?_range h]
  rfl

theorem sweepFinalT_getD (s : Scenario) (gas : String) (N t : Nat) (h : t < N + 1) :
    (sweepFinalT s gas N).getD t [] =
      if t < N then s.emissionsTCurves (t + 1) gas else s.emissionsTCurves 0 gas := by
  unfold sweepFinalT
  rw [List.getD_eq_getElem?_getD, List.getElem?_map, List.getElem?_range h]
  rfl

theorem periodCurvesOf_getD (s : Scenario) (numPoints : Nat)
    (qarr tarr : List RegionCurveMap) (per : Nat) (h : per < s.modeltime.maxper) :
    (periodCurvesOf s numPoints qarr tarr).getD per [] =
      (qarr.getD 0 []).map (fun e =>
        (e.1, periodCostCurveFor qarr tarr numPoints (periodYear s per) per e.1 e.2)) := by
  unfold periodCurvesOf
  rw [List.getD_eq_getElem?_getD, List.getElem?_map, List.getElem?_range h]
  rfl

theorem mapLookup_tabulate {α : Type} (f : String → α) :
    ∀ (ks : List String) (r : String), r ∈ ks →
      mapLookup (ks.map (fun k => (k, f k))) r = some (f r) := by
  intro ks
  induction ks with
  | nil => intro r hr; simp at hr
  | cons k rest ih =>
    intro r hr
    by_cases h1 : k = r
    · subst h1
      simp [mapLookup]
    · have hr2 : r ∈ rest := by
        rcases List.mem_cons.mp hr with he | hm
        · exact absurd he.symm h1
        · exact hm
      simp [mapLookup, h1, ih r hr2]

/-- Clamping: the piecewise-linear integral does not depend on the upper
integration bound once that bound is at or beyond every sample. -/
theorem integralPts_clamp (lo hi hi' : ℚ) :
    ∀ ps : List XYDataPoint, (∀ pt ∈ ps, pt.x ≤ hi) → (∀ pt ∈ ps, pt.x ≤ hi') →
      integralPts lo hi ps = integralPts lo hi' ps := by
  intro ps
  induction ps with
  | nil => intro _ _; rfl
  | cons p tail ih =>
    intro h1 h2
    cases tail with
    | nil => rfl
    | cons q rest =>
      show segIntegral lo hi p q + integralPts lo hi (q :: rest) =
        segIntegral lo hi' p q + integralPts lo hi' (q :: rest)
      have hq : q.x ≤ hi := h1 q (by simp)
      have hq' : q.x ≤ hi' := h2 q (by simp)
      have hseg : segIntegral lo hi p q = segIntegral lo hi' p q := by
        unfold segIntegral
        rw [min_eq_right hq, min_eq_right hq']
      rw [hseg, ih (fun pt hpt => h1 pt (by simp [List.mem_cons.mp hpt]))
        (fun pt hpt => h2 pt (by simp [List.mem_cons.mp hpt]))]

theorem getIntegral_clamp (c : PointSetCurve) (lo hi hi' : ℚ)
    (h : ∀ pt ∈ c.points, pt.x ≤ hi) (h' : ∀ pt ∈ c.points, pt.x ≤ hi') :
    c.getIntegral lo hi = c.getIntegral lo hi' :=
  integralPts_clamp lo hi hi' c.points h h'

/-! ### Lemmas about the regional aggregation fold -/

/-- The undiscounted cost computed for one region by the aggregation
loop. -/
def regionalCostFor (conf : Configuration) (s : Scenario)
    (periodCurves : List RegionCurveMap) (region : String) : ℚ :=
  (regionYearCurve s periodCurves region).getIntegral
    (conf.discountStartYear : ℚ) (s.modeltime.endYear : ℚ)

/-- The discounted cost computed for one region by the aggregation loop. -/
def discountedCostFor (conf : Configuration) (s : Scenario)
    (periodCurves : List RegionCurveMap) (region : String) : ℚ :=
  (regionYearCurve s periodCurves region).getDiscountedValue
    (conf.discountStartYear : ℚ) (s.modeltime.endYear : ℚ) conf.discountRate

theorem regionalStep_unchanged (conf : Configuration) (s : Scenario)
    (pcs : List RegionCurveMap) (acc : TotalPolicyCostCalculator)
    (e : String × PointSetCurve) :
    (regionalStep conf s pcs acc e).mGHGName = acc.mGHGName ∧
    (regionalStep conf s pcs acc e).mNumPoints = acc.mNumPoints ∧
    (regionalStep conf s pcs acc e).mEmissionsQCurves = acc.mEmissionsQCurves ∧
    (regionalStep conf s pcs acc e).mEmissionsTCurves = acc.mEmissionsTCurves ∧
    (regionalStep conf s pcs acc e).mPeriodCostCurves = acc.mPeriodCostCurves ∧
    (regionalStep conf s pcs acc e).mRanCosts = acc.mRanCosts := by
  by_cases hg : e.1 = "global" <;> simp [regionalStep, hg]

theorem foldl_regionalStep_unchanged (conf : Configuration) (s : Scenario)
    (pcs : List RegionCurveMap) :
    ∀ (entries : List (String × PointSetCurve)) (acc : TotalPolicyCostCalculator),
      (entries.foldl (regionalStep conf s pcs) acc).mGHGName = acc.mGHGName ∧
      (entries.foldl (regionalStep conf s pcs) acc).mNumPoints = acc.mNumPoints ∧
      (entries.foldl (regionalStep conf s pcs) acc).mEmissionsQCurves = acc.mEmissionsQCurves ∧
      (entries.foldl (regionalStep conf s pcs) acc).mEmissionsTCurves = acc.mEmissionsTCurves ∧
      (entries.foldl (regionalStep conf s pcs) acc).mPeriodCostCurves = acc.mPeriodCostCurves ∧
      (entries.foldl (regionalStep conf s pcs) acc).mRanCosts = acc.mRanCosts := by
  intro entries
  induction entries with
  | nil => intro acc; exact ⟨rfl, rfl, rfl, rfl, rfl, rfl⟩
  | cons e rest ih =>
    intro acc
    rcases regionalStep_unchanged conf s pcs acc e with ⟨g1, g2, g3, g4, g5, g6⟩
    rcases ih (regionalStep conf s pcs acc e) with ⟨h1, h2, h3, h4, h5, h6⟩
    exact ⟨h1.trans g1, h2.trans g2, h3.trans g3, h4.trans g4, h5.trans g5, h6.trans g6⟩

theorem foldl_regionalStep_mGlobalCost (conf : Configuration) (s : Scenario)
    (pcs : List RegionCurveMap) :
    ∀ (entries : List (String × PointSetCurve)) (acc : TotalPolicyCostCalculator),
      (entries.foldl (regionalStep conf s pcs) acc).mGlobalCost =
        acc.mGlobalCost +
          ((entries.filter (fun e => e.1 ≠ "global")).map
            (fun e => regionalCostFor conf s pcs e.1)).sum := by
  intro entries
  induction entries with
  | nil => intro acc; simp
  | cons e rest ih =>
    intro acc
    show (rest.foldl (regionalStep conf s pcs) (regionalStep conf s pcs acc e)).mGlobalCost = _
    rw [ih (regionalStep conf s pcs acc e)]
    by_cases hg : e.1 = "global"
    · simp [regionalStep, hg, List.filter_cons]
    · simp only [regionalStep, if_neg hg, List.filter_cons]
      have : (decide (e.1 ≠ "global")) = true := by simp [hg]
      rw [if_pos this]
      simp only [List.map_cons, List.sum_cons]
      unfold regionalCostFor
      ring

theorem foldl_regionalStep_mGlobalDiscountedCost (conf : Configuration) (s : Scenario)
    (pcs : List RegionCurveMap) :
    ∀ (entries : List (String × PointSetCurve)) (acc : TotalPolicyCostCalculator),
      (entries.foldl (regionalStep conf s pcs) acc).mGlobalDiscountedCost =
        acc.mGlobalDiscountedCost +
          ((entries.filter (fun e => e.1 ≠ "global")).map
            (fun e => discountedCostFor conf s pcs e.1)).sum := by
  intro entries
  induction entries with
  | nil => intro acc; simp
  | cons e rest ih =>
    intro acc
    show (rest.foldl (regionalStep conf s pcs)
      (regionalStep conf s pcs acc e)).mGlobalDiscountedCost = _
    rw [ih (regionalStep conf s pcs acc e)]
    by_cases hg : e.1 = "global"
    · simp [regionalStep, hg, List.filter_cons]
    · simp only [regionalStep, if_neg hg, List.filter_cons]
      have : (decide (e.1 ≠ "global")) = true := by simp [hg]
      rw [if_pos this]
      simp only [List.map_cons, List.sum_cons]
      unfold discountedCostFor
      ring

theorem foldl_regionalStep_mRegionalCosts (conf : Configuration) (s : Scenario)
    (pcs : List RegionCurveMap) :
    ∀ (entries : List (String × PointSetCurve)) (acc : TotalPolicyCostCalculator),
      (entries.foldl (regionalStep conf s pcs) acc).mRegionalCosts =
        ((entries.filter (fun e => e.1 ≠ "global")).map Prod.fst).foldl
          (fun m k => mapInsert m k (regionalCostFor conf s pcs k)) acc.mRegionalCosts := by
  intro entries
  induction entries with
  | nil => intro acc; rfl
  | cons e rest ih =>
    intro acc
    show (rest.foldl (regionalStep conf s pcs) (regionalStep conf s pcs acc e)).mRegionalCosts = _
    rw [ih (regionalStep conf s pcs acc e)]
    by_cases hg : e.1 = "global"
    · simp [regionalStep, hg, List.filter_cons]
    · simp only [regionalStep, if_neg hg, List.filter_cons]
      have : (decide (e.1 ≠ "global")) = true := by simp [hg]
      rw [if_pos this]
      rfl

theorem foldl_regionalStep_mRegionalDiscountedCosts (conf : Configuration) (s : Scenario)
    (pcs : List RegionCurveMap) :
    ∀ (entries : List (String × PointSetCurve)) (acc : TotalPolicyCostCalculator),
      (entries.foldl (regionalStep conf s pcs) acc).mRegionalDiscountedCosts =
        ((entries.filter (fun e => e.1 ≠ "global")).map Prod.fst).foldl
          (fun m k => mapInsert m k (discountedCostFor conf s pcs k))
          acc.mRegionalDiscountedCosts := by
  intro entries
  induction entries with
  | nil => intro acc; rfl
  | cons e rest ih =>
    intro acc
    show (rest.foldl (regionalStep conf s pcs)
      (regionalStep conf s pcs acc e)).mRegionalDiscountedCosts = _
    rw [ih (regionalStep conf s pcs acc e)]
    by_cases hg : e.1 = "global"
    · simp [regionalStep, hg, List.filter_cons]
    · simp only [regionalStep, if_neg hg, List.filter_cons]
      have : (decide (e.1 ≠ "global")) = true := by simp [hg]
      rw [if_pos this]
      rfl

theorem foldl_regionalStep_mRegionalCostCurves (conf : Configuration) (s : Scenario)
    (pcs : List RegionCurveMap) :
    ∀ (entries : List (String × PointSetCurve)) (acc : TotalPolicyCostCalculator),
      (entries.foldl (regionalStep conf s pcs) acc).mRegionalCostCurves =
        ((entries.filter (fun e => e.1 ≠ "global")).map Prod.fst).foldl
          (fun m k => mapInsert m k (regionYearCurve s pcs k)) acc.mRegionalCostCurves := by
  intro entries
  induction entries with
  | nil => intro acc; rfl
  | cons e rest ih =>
    intro acc
    show (rest.foldl (regionalStep conf s pcs)
      (regionalStep conf s pcs acc e)).mRegionalCostCurves = _
    rw [ih (regionalStep conf s pcs acc e)]
    by_cases hg : e.1 = "global"
    · simp [regionalStep, hg, List.filter_cons]
    · simp only [regionalStep, if_neg hg, List.filter_cons]
      have : (decide (e.1 ≠ "global")) = true := by simp [hg]
      rw [if_pos this]
      rfl

/-! ### Decomposition of the top-level computation -/

theorem active_not_isNone {o : Option ℚ} (h : o.isSome) : ¬(o.isNone = true) := by
  cases o <;> simp_all

/-- The initial sweep state of `runTrials`. -/
def initTrialsState (c : TotalPolicyCostCalculator) : TrialsState :=
  { success := true
    qarr := c.mEmissionsQCurves
    tarr := c.mEmissionsTCurves
    runsDone := 0
    trace := [] }

/-- The sweep state produced by `runTrials` (the `let`-bound state of its
body, exposed for reasoning). -/
def runTrialsState (s : Scenario) (c : TotalPolicyCostCalculator) : TrialsState :=
  runTrialsFrom s c.mGHGName c.mNumPoints (c.mEmissionsTCurves.getD c.mNumPoints [])
    (List.range c.mNumPoints) (initTrialsState c)

theorem runTrials_eq (s : Scenario) (c : TotalPolicyCostCalculator) :
    TotalPolicyCostCalculator.runTrials s c =
      ((runTrialsState s c).success,
       { c with mEmissionsQCurves := (runTrialsState s c).qarr
                mEmissionsTCurves := (runTrialsState s c).tarr },
       (runTrialsState s c).trace) := rfl

/-- The calculator state after the baseline snapshots are stored at trial
index `mNumPoints` (the state called `this` after lines 107-112 of the
source). -/
def baselineStored (s : Scenario) (c : TotalPolicyCostCalculator) : TotalPolicyCostCalculator :=
  { c with
    mEmissionsQCurves :=
      (resizeTo (c.mNumPoints + 1) c.mEmissionsQCurves).set c.mNumPoints
        (s.emissionsQCurves 0 c.mGHGName)
    mEmissionsTCurves :=
      (resizeTo (c.mNumPoints + 1) c.mEmissionsTCurves).set c.mNumPoints
        (s.emissionsTCurves 0 c.mGHGName) }

theorem calcACC_skip (conf : Configuration) (s : Scenario) (c : TotalPolicyCostCalculator)
    (h : (s.getPrice c.mGHGName "USA" 1).isNone) :
    calculateAbatementCostCurve conf s c = (true, c, []) := by
  unfold calculateAbatementCostCurve
  rw [if_pos h]

theorem calcACC_active_eq (conf : Configuration) (s : Scenario)
    (c : TotalPolicyCostCalculator) (h : (s.getPrice c.mGHGName "USA" 1).isSome) :
    calculateAbatementCostCurve conf s c =
      ((runTrialsState s (baselineStored s c)).success,
       { createRegionalCostCurves conf s (createCostCurvesByPeriod s
           (TotalPolicyCostCalculator.runTrials s (baselineStored s c)).2.1)
         with mRanCosts := true },
       (runTrialsState s (baselineStored s c)).trace) := by
  unfold calculateAbatementCostCurve
  rw [if_neg (active_not_isNone h)]
  rfl

theorem baselineStored_tarr_getD (s : Scenario) (c : TotalPolicyCostCalculator) :
    (baselineStored s c).mEmissionsTCurves.getD c.mNumPoints [] =
      s.emissionsTCurves 0 c.mGHGName := by
  unfold baselineStored
  exact set_getD_self _ _ _ (by rw [resizeTo_length]; omega)

theorem resizeTo_getElem? (n : Nat) (l : List RegionCurveMap) (t : Nat) :
    (resizeTo n l)[t]? = if t < n then some (l.getD t []) else none := by
  unfold resizeTo
  by_cases h : t < n
  · rw [List.getElem?_map, List.getElem?_range h, if_pos h]
    rfl
  · rw [if_neg h, List.getElem?_eq_none]
    simp
    omega

/-- The trace of the full computation in the active case: the sweep blocks
for trials `0 .. N - 1`, with the taxes computed from the baseline price
curves. -/
theorem calcACC_trace (conf : Configuration) (s : Scenario) (c : TotalPolicyCostCalculator)
    (h : (s.getPrice c.mGHGName "USA" 1).isSome) :
    (calculateAbatementCostCurve conf s c).2.2 =
      sweepBlocks s c.mGHGName c.mNumPoints (s.emissionsTCurves 0 c.mGHGName)
        (List.range c.mNumPoints) := by
  rw [calcACC_active_eq conf s c h]
  show (runTrialsState s (baselineStored s c)).trace = _
  unfold runTrialsState
  rw [runTrialsFrom_trace]
  rw [show (baselineStored s c).mGHGName = c.mGHGName from rfl]
  rw [show (baselineStored s c).mNumPoints = c.mNumPoints from rfl]
  rw [baselineStored_tarr_getD]
  simp [initTrialsState]

/-- The success flag of the full computation in the active case: the AND of
the per-run success reports. -/
theorem calcACC_success (conf : Configuration) (s : Scenario) (c : TotalPolicyCostCalculator)
    (h : (s.getPrice c.mGHGName "USA" 1).isSome) :
    (calculateAbatementCostCurve conf s c).1 =
      (List.range c.mNumPoints).all s.runSuccess := by
  rw [calcACC_active_eq conf s c h]
  show (runTrialsState s (baselineStored s c)).success = _
  unfold runTrialsState
  rw [runTrialsFrom_success]
  simp [initTrialsState]
  rfl

theorem runTrialsState_baselineStored_qarr (s : Scenario) (c : TotalPolicyCostCalculator) :
    (runTrialsState s (baselineStored s c)).qarr = sweepFinalQ s c.mGHGName c.mNumPoints := by
  apply List.ext_getElem?
  intro t
  unfold runTrialsState
  rw [show List.range (baselineStored s c).mNumPoints =
    List.range' 0 (baselineStored s c).mNumPoints from List.range_eq_range' _]
  rw [runTrialsFrom_qarr s _ _ _ (baselineStored s c).mNumPoints 0 _ rfl t]
  have hlenA : (baselineStored s c).mEmissionsQCurves.length = c.mNumPoints + 1 := by
    show ((resizeTo (c.mNumPoints + 1) c.mEmissionsQCurves).set c.mNumPoints _).length = _
    rw [List.length_set, resizeTo_length]
  have hA : ∀ u, (baselineStored s c).mEmissionsQCurves[u]? =
      if c.mNumPoints = u then some (s.emissionsQCurves 0 c.mGHGName)
      else if u < c.mNumPoints + 1 then some (c.mEmissionsQCurves.getD u []) else none := by
    intro u
    show ((resizeTo (c.mNumPoints + 1) c.mEmissionsQCurves).set c.mNumPoints
      (s.emissionsQCurves 0 c.mGHGName))[u]? = _
    rw [List.getElem?_set, resizeTo_getElem?]
    by_cases he : c.mNumPoints = u
    · rw [if_pos he, if_pos he, if_pos (by rw [resizeTo_length]; omega)]
    · rw [if_neg he, if_neg he]
  have hB : ∀ u, (sweepFinalQ s c.mGHGName c.mNumPoints)[u]? =
      if u < c.mNumPoints + 1
      then some (if u < c.mNumPoints then s.emissionsQCurves (u + 1) c.mGHGName
        else s.emissionsQCurves 0 c.mGHGName)
      else none := by
    intro u
    unfold sweepFinalQ
    by_cases hu : u < c.mNumPoints + 1
    · rw [List.getElem?_map, List.getElem?_range hu, if_pos hu]
      rfl
    · rw [if_neg hu, List.getElem?_eq_none]
      simp
      omega
  rw [show (baselineStored s c).mNumPoints = c.mNumPoints from rfl]
  rw [show (baselineStored s c).mGHGName = c.mGHGName from rfl]
  rw [show (initTrialsState (baselineStored s c)).qarr =
    (baselineStored s c).mEmissionsQCurves from rfl]
  rw [hlenA, hB t]
  by_cases h1 : t < c.mNumPoints
  · rw [if_pos (by omega), if_pos (by omega), if_pos h1]
  · rw [if_neg (by omega), hA t]
    by_cases h2 : t = c.mNumPoints
    · rw [if_pos h2.symm, if_pos (by omega), if_neg h1]
    · rw [if_neg (fun he => h2 he.symm), if_neg (by omega), if_neg (by omega)]

theorem runTrialsState_baselineStored_tarr (s : Scenario) (c : TotalPolicyCostCalculator) :
    (runTrialsState s (baselineStored s c)).tarr = sweepFinalT s c.mGHGName c.mNumPoints := by
  apply List.ext_getElem?
  intro t
  unfold runTrialsState
  rw [show List.range (baselineStored s c).mNumPoints =
    List.range' 0 (baselineStored s c).mNumPoints from List.range_eq_range' _]
  rw [runTrialsFrom_tarr s _ _ _ (baselineStored s c).mNumPoints 0 _ rfl t]
  have hlenA : (baselineStored s c).mEmissionsTCurves.length = c.mNumPoints + 1 := by
    show ((resizeTo (c.mNumPoints + 1) c.mEmissionsTCurves).set c.mNumPoints _).length = _
    rw [List.length_set, resizeTo_length]
  have hA : ∀ u, (baselineStored s c).mEmissionsTCurves[u]? =
      if c.mNumPoints = u then some (s.emissionsTCurves 0 c.mGHGName)
      else if u < c.mNumPoints + 1 then some (c.mEmissionsTCurves.getD u []) else none := by
    intro u
    show ((resizeTo (c.mNumPoints + 1) c.mEmissionsTCurves).set c.mNumPoints
      (s.emissionsTCurves 0 c.mGHGName))[u]? = _
    rw [List.getElem?_set, resizeTo_getElem?]
    by_cases he : c.mNumPoints = u
    · rw [if_pos he, if_pos he, if_pos (by rw [resizeTo_length]; omega)]
    · rw [if_neg he, if_neg he]
  have hB : ∀ u, (sweepFinalT s c.mGHGName c.mNumPoints)[u]? =
      if u < c.mNumPoints + 1
      then some (if u < c.mNumPoints then s.emissionsTCurves (u + 1) c.mGHGName
        else s.emissionsTCurves 0 c.mGHGName)
      else none := by
    intro u
    unfold sweepFinalT
    by_cases hu : u < c.mNumPoints + 1
    · rw [List.getElem?_map, List.getElem?_range hu, if_pos hu]
      rfl
    · rw [if_neg hu, List.getElem?_eq_none]
      simp
      omega
  rw [show (baselineStored s c).mNumPoints = c.mNumPoints from rfl]
  rw [show (baselineStored s c).mGHGName = c.mGHGName from rfl]
  rw [show (initTrialsState (baselineStored s c)).tarr =
    (baselineStored s c).mEmissionsTCurves from rfl]
  rw [hlenA, hB t]
  by_cases h1 : t < c.mNumPoints
  · rw [if_pos (by omega), if_pos (by omega), if_pos h1]
  · rw [if_neg (by omega), hA t]
    by_cases h2 : t = c.mNumPoints
    · rw [if_pos h2.symm, if_pos (by omega), if_neg h1]
    · rw [if_neg (fun he => h2 he.symm), if_neg (by omega), if_neg (by omega)]

theorem calcACC_mEmissionsQCurves (conf : Configuration) (s : Scenario)
    (c : TotalPolicyCostCalculator) (h : (s.getPrice c.mGHGName "USA" 1).isSome) :
    (calculateAbatementCostCurve conf s c).2.1.mEmissionsQCurves =
      sweepFinalQ s c.mGHGName c.mNumPoints := by
  rw [calcACC_active_eq conf s c h]
  have hun := foldl_regionalStep_unchanged conf s
    ((createCostCurvesByPeriod s
      (TotalPolicyCostCalculator.runTrials s (baselineStored s c)).2.1).mPeriodCostCurves)
    ((createCostCurvesByPeriod s
      (TotalPolicyCostCalculator.runTrials s (baselineStored s c)).2.1).mPeriodCostCurves.getD 0 [])
    (createCostCurvesByPeriod s
      (TotalPolicyCostCalculator.runTrials s (baselineStored s c)).2.1)
  show (createRegionalCostCurves conf s (createCostCurvesByPeriod s
      (TotalPolicyCostCalculator.runTrials s (baselineStored s c)).2.1)).mEmissionsQCurves = _
  unfold createRegionalCostCurves
  rw [hun.2.2.1]
  exact runTrialsState_baselineStored_qarr s c

theorem calcACC_mEmissionsTCurves (conf : Configuration) (s : Scenario)
    (c : TotalPolicyCostCalculator) (h : (s.getPrice c.mGHGName "USA" 1).isSome) :
    (calculateAbatementCostCurve conf s c).2.1.mEmissionsTCurves =
      sweepFinalT s c.mGHGName c.mNumPoints := by
  rw [calcACC_active_eq conf s c h]
  have hun := foldl_regionalStep_unchanged conf s
    ((createCostCurvesByPeriod s
      (TotalPolicyCostCalculator.runTrials s (baselineStored s c)).2.1).mPeriodCostCurves)
    ((createCostCurvesByPeriod s
      (TotalPolicyCostCalculator.runTrials s (baselineStored s c)).2.1).mPeriodCostCurves.getD 0 [])
    (createCostCurvesByPeriod s
      (TotalPolicyCostCalculator.runTrials s (baselineStored s c)).2.1)
  show (createRegionalCostCurves conf s (createCostCurvesByPeriod s
      (TotalPolicyCostCalculator.runTrials s (baselineStored s c)).2.1)).mEmissionsTCurves = _
  unfold createRegionalCostCurves
  rw [hun.2.2.2.1]
  exact runTrialsState_baselineStored_tarr s c

/-- The period-cost-curve family produced by the full computation: built
over the post-sweep snapshot arrays. -/
def pipelinePcs (s : Scenario) (c : TotalPolicyCostCalculator) : List RegionCurveMap :=
  periodCurvesOf s c.mNumPoints (sweepFinalQ s c.mGHGName c.mNumPoints)
    (sweepFinalT s c.mGHGName c.mNumPoints)

theorem c3_mPeriodCostCurves (s : Scenario) (c : TotalPolicyCostCalculator) :
    (createCostCurvesByPeriod s
      (TotalPolicyCostCalculator.runTrials s (baselineStored s c)).2.1).mPeriodCostCurves =
      pipelinePcs s c := by
  show periodCurvesOf s _ _ _ = _
  unfold pipelinePcs
  rw [show (TotalPolicyCostCalculator.runTrials s (baselineStored s c)).2.1.mEmissionsQCurves =
    (runTrialsState s (baselineStored s c)).qarr from rfl]
  rw [show (TotalPolicyCostCalculator.runTrials s (baselineStored s c)).2.1.mEmissionsTCurves =
    (runTrialsState s (baselineStored s c)).tarr from rfl]
  rw [runTrialsState_baselineStored_qarr, runTrialsState_baselineStored_tarr]
  rfl

theorem calcACC_mPeriodCostCurves (conf : Configuration) (s : Scenario)
    (c : TotalPolicyCostCalculator) (h : (s.getPrice c.mGHGName "USA" 1).isSome) :
    (calculateAbatementCostCurve conf s c).2.1.mPeriodCostCurves = pipelinePcs s c := by
  rw [calcACC_active_eq conf s c h]
  have hun := foldl_regionalStep_unchanged conf s
    ((createCostCurvesByPeriod s
      (TotalPolicyCostCalculator.runTrials s (baselineStored s c)).2.1).mPeriodCostCurves)
    ((createCostCurvesByPeriod s
      (TotalPolicyCostCalculator.runTrials s (baselineStored s c)).2.1).mPeriodCostCurves.getD 0 [])
    (createCostCurvesByPeriod s
      (TotalPolicyCostCalculator.runTrials s (baselineStored s c)).2.1)
  show (createRegionalCostCurves conf s (createCostCurvesByPeriod s
      (TotalPolicyCostCalculator.runTrials s (baselineStored s c)).2.1)).mPeriodCostCurves = _
  unfold createRegionalCostCurves
  rw [hun.2.2.2.2.1]
  exact c3_mPeriodCostCurves s c

theorem calcACC_mRanCosts (conf : Configuration) (s : Scenario)
    (c : TotalPolicyCostCalculator) (h : (s.getPrice c.mGHGName "USA" 1).isSome) :
    (calculateAbatementCostCurve conf s c).2.1.mRanCosts = true := by
  rw [calcACC_active_eq conf s c h]

/-- The region entries iterated by the aggregation loop in the full
computation: the map for period 0. -/
def aggEntries (s : Scenario) (c : TotalPolicyCostCalculator) :
    List (String × PointSetCurve) :=
  (pipelinePcs s c).getD 0 []

/-- The region names actually aggregated: the period-0 regions with the
"global" pseudo-region removed. -/
def aggKeys (s : Scenario) (c : TotalPolicyCostCalculator) : List String :=
  ((aggEntries s c).filter (fun e => e.1 ≠ "global")).map Prod.fst

theorem calcACC_mGlobalCost (conf : Configuration) (s : Scenario)
    (c : TotalPolicyCostCalculator) (h : (s.getPrice c.mGHGName "USA" 1).isSome) :
    (calculateAbatementCostCurve conf s c).2.1.mGlobalCost =
      c.mGlobalCost +
        (((aggEntries s c).filter (fun e => e.1 ≠ "global")).map
          (fun e => regionalCostFor conf s (pipelinePcs s c) e.1)).sum := by
  rw [calcACC_active_eq conf s c h]
  show (createRegionalCostCurves conf s (createCostCurvesByPeriod s
      (TotalPolicyCostCalculator.runTrials s (baselineStored s c)).2.1)).mGlobalCost = _
  unfold createRegionalCostCurves
  rw [foldl_regionalStep_mGlobalCost, c3_mPeriodCostCurves]
  rfl

theorem calcACC_mGlobalDiscountedCost (conf : Configuration) (s : Scenario)
    (c : TotalPolicyCostCalculator) (h : (s.getPrice c.mGHGName "USA" 1).isSome) :
    (calculateAbatementCostCurve conf s c).2.1.mGlobalDiscountedCost =
      c.mGlobalDiscountedCost +
        (((aggEntries s c).filter (fun e => e.1 ≠ "global")).map
          (fun e => discountedCostFor conf s (pipelinePcs s c) e.1)).sum := by
  rw [calcACC_active_eq conf s c h]
  show (createRegionalCostCurves conf s (createCostCurvesByPeriod s
      (TotalPolicyCostCalculator.runTrials s (baselineStored s c)).2.1)).mGlobalDiscountedCost
    = _
  unfold createRegionalCostCurves
  rw [foldl_regionalStep_mGlobalDiscountedCost, c3_mPeriodCostCurves]
  rfl

theorem calcACC_mRegionalCosts (conf : Configuration) (s : Scenario)
    (c : TotalPolicyCostCalculator) (h : (s.getPrice c.mGHGName "USA" 1).isSome) :
    (calculateAbatementCostCurve conf s c).2.1.mRegionalCosts =
      (aggKeys s c).foldl
        (fun m k => mapInsert m k (regionalCostFor conf s (pipelinePcs s c) k))
        c.mRegionalCosts := by
  rw [calcACC_active_eq conf s c h]
  show (createRegionalCostCurves conf s (createCostCurvesByPeriod s
      (TotalPolicyCostCalculator.runTrials s (baselineStored s c)).2.1)).mRegionalCosts = _
  unfold createRegionalCostCurves
  rw [foldl_regionalStep_mRegionalCosts, c3_mPeriodCostCurves]
  rfl

theorem calcACC_mRegionalDiscountedCosts (conf : Configuration) (s : Scenario)
    (c : TotalPolicyCostCalculator) (h : (s.getPrice c.mGHGName "USA" 1).isSome) :
    (calculateAbatementCostCurve conf s c).2.1.mRegionalDiscountedCosts =
      (aggKeys s c).foldl
        (fun m k => mapInsert m k (discountedCostFor conf s (pipelinePcs s c) k))
        c.mRegionalDiscountedCosts := by
  rw [calcACC_active_eq conf s c h]
  show (createRegionalCostCurves conf s (createCostCurvesByPeriod s
      (TotalPolicyCostCalculator.runTrials s (baselineStored s c)).2.1)).mRegionalDiscountedCosts
    = _
  unfold createRegionalCostCurves
  rw [foldl_regionalStep_mRegionalDiscountedCosts, c3_mPeriodCostCurves]
  rfl

theorem calcACC_mRegionalCostCurves (conf : Configuration) (s : Scenario)
    (c : TotalPolicyCostCalculator) (h : (s.getPrice c.mGHGName "USA" 1).isSome) :
    (calculateAbatementCostCurve conf s c).2.1.mRegionalCostCurves =
      (aggKeys s c).foldl
        (fun m k => mapInsert m k (regionYearCurve s (pipelinePcs s c) k))
        c.mRegionalCostCurves := by
  rw [calcACC_active_eq conf s c h]
  show (createRegionalCostCurves conf s (createCostCurvesByPeriod s
      (TotalPolicyCostCalculator.runTrials s (baselineStored s c)).2.1)).mRegionalCostCurves = _
  unfold createRegionalCostCurves
  rw [foldl_regionalStep_mRegionalCostCurves, c3_mPeriodCostCurves]
  rfl

/-! ### Further helper lemmas for the claims -/

theorem range_split (t N : Nat) (h : t ≤ N) :
    List.range N = List.range' 0 t ++ List.range' t (N - t) := by
  rw [List.range_eq_range']
  have h2 := List.range'_append 0 t (N - t) 1
  simp only [Nat.zero_add, Nat.one_mul] at h2
  conv_lhs => rw [show N = N - t + t from (Nat.sub_add_cancel h).symm]
  exact h2.symm

theorem sweepBlocks_append (s : Scenario) (gas : String) (numPoints : Nat)
    (baseT : RegionCurveMap) :
    ∀ l1 l2 : List Nat,
      sweepBlocks s gas numPoints baseT (l1 ++ l2) =
        sweepBlocks s gas numPoints baseT l1 ++ sweepBlocks s gas numPoints baseT l2 := by
  intro l1
  induction l1 with
  | nil => intro l2; rfl
  | cons t rest ih =>
    intro l2
    simp only [List.cons_append, sweepBlocks, List.append_assoc, List.cons_append,
      List.append_eq]
    rw [ih]

/-- Inside the sweep trace, each trial's `setTax` event for a given region
precedes that trial's tagged run. -/
theorem sweepBlocks_split (s : Scenario) (gas : String) (numPoints : Nat)
    (baseT : RegionCurveMap) (t : Nat) (N : Nat) (ht : t < N)
    (region : String) (curve : PointSetCurve) (hmem : (region, curve) ∈ baseT) :
    ∃ l1 l2 l3, sweepBlocks s gas numPoints baseT (List.range N) =
      l1 ++ SimEvent.setTax gas region
          (trialTaxes s curve ((t : ℚ) / (numPoints : ℚ)))
        :: (l2 ++ SimEvent.run t :: l3) := by
  rw [range_split t N (Nat.le_of_lt ht)]
  rw [sweepBlocks_append]
  rw [show List.range' t (N - t) = t :: List.range' (t + 1) (N - t - 1) from by
    obtain ⟨m, hm⟩ : ∃ m, N - t = m + 1 := ⟨N - t - 1, by omega⟩
    rw [hm, List.range'_succ]
    simp]
  rcases List.append_of_mem hmem with ⟨b1, b2, hb⟩
  refine ⟨sweepBlocks s gas numPoints baseT (List.range' 0 t) ++
    (b1.map (fun e => SimEvent.setTax gas e.1
      (trialTaxes s e.2 ((t : ℚ) / (numPoints : ℚ))))),
    b2.map (fun e => SimEvent.setTax gas e.1
      (trialTaxes s e.2 ((t : ℚ) / (numPoints : ℚ)))),
    sweepBlocks s gas numPoints baseT (List.range' (t + 1) (N - t - 1)), ?_⟩
  simp only [sweepBlocks, setTaxEvents, hb, List.map_append, List.map_cons,
    List.append_assoc, List.cons_append]

theorem foldl_mapInsert_lookup_of_not_mem {α : Type} (f : String → α) :
    ∀ (ks : List String) (m : List (String × α)) (r : String), r ∉ ks →
      mapLookup (ks.foldl (fun acc k => mapInsert acc k (f k)) m) r = mapLookup m r := by
  intro ks
  induction ks with
  | nil => intro m r _; rfl
  | cons k rest ih =>
    intro m r hr
    have hk : r ≠ k := fun he => hr (by simp [he])
    have hrest : r ∉ rest := fun hm => hr (by simp [hm])
    show mapLookup (rest.foldl (fun acc k => mapInsert acc k (f k)) (mapInsert m k (f k))) r = _
    rw [ih (mapInsert m k (f k)) r hrest, mapLookup_mapInsert_ne m k r (f k) hk]

theorem foldl_mapInsert_lookup {α : Type} (f : String → α) :
    ∀ (ks : List String) (m : List (String × α)) (r : String), r ∈ ks →
      mapLookup (ks.foldl (fun acc k => mapInsert acc k (f k)) m) r = some (f r) := by
  intro ks
  induction ks with
  | nil => intro m r hr; simp at hr
  | cons k rest ih =>
    intro m r hr
    show mapLookup (rest.foldl (fun acc k => mapInsert acc k (f k)) (mapInsert m k (f k))) r = _
    by_cases hrest : r ∈ rest
    · exact ih (mapInsert m k (f k)) r hrest
    · have hk : r = k := by
        rcases List.mem_cons.mp hr with he | hm
        · exact he
        · exact absurd hm hrest
      subst hk
      rw [foldl_mapInsert_lookup_of_not_mem f rest (mapInsert m r (f r)) r hrest]
      exact mapLookup_mapInsert_self m r (f r)

theorem mapKeys_tabulate {α : Type} (f : String → α) (ks : List String) :
    mapKeys (ks.map (fun k => (k, f k))) = ks := by
  unfold mapKeys
  rw [List.map_map]
  exact List.map_id ks

theorem not_global_mem_aggKeys (s : Scenario) (c : TotalPolicyCostCalculator) :
    "global" ∉ aggKeys s c := by
  unfold aggKeys
  intro hmem
  rcases List.mem_map.mp hmem with ⟨e, he, hfst⟩
  have hp := List.of_mem_filter he
  simp only [decide_eq_true_eq] at hp
  exact hp hfst

theorem aggKeys_nodup (s : Scenario) (c : TotalPolicyCostCalculator)
    (h : (mapKeys (aggEntries s c)).Nodup) : (aggKeys s c).Nodup := by
  unfold aggKeys
  exact List.Nodup.sublist ((List.filter_sublist _).map Prod.fst) h

theorem pipelinePcs_congr (s : Scenario) (c1 c2 : TotalPolicyCostCalculator)
    (h1 : c1.mGHGName = c2.mGHGName) (h2 : c1.mNumPoints = c2.mNumPoints) :
    pipelinePcs s c1 = pipelinePcs s c2 := by
  unfold pipelinePcs
  rw [h1, h2]

theorem calcACC_mGHGName (conf : Configuration) (s : Scenario)
    (c : TotalPolicyCostCalculator) (h : (s.getPrice c.mGHGName "USA" 1).isSome) :
    (calculateAbatementCostCurve conf s c).2.1.mGHGName = c.mGHGName := by
  rw [calcACC_active_eq conf s c h]
  have hun := foldl_regionalStep_unchanged conf s
    ((createCostCurvesByPeriod s
      (TotalPolicyCostCalculator.runTrials s (baselineStored s c)).2.1).mPeriodCostCurves)
    ((createCostCurvesByPeriod s
      (TotalPolicyCostCalculator.runTrials s (baselineStored s c)).2.1).mPeriodCostCurves.getD 0 [])
    (createCostCurvesByPeriod s
      (TotalPolicyCostCalculator.runTrials s (baselineStored s c)).2.1)
  show (createRegionalCostCurves conf s (createCostCurvesByPeriod s
      (TotalPolicyCostCalculator.runTrials s (baselineStored s c)).2.1)).mGHGName = _
  unfold createRegionalCostCurves
  exact hun.1

theorem calcACC_mNumPoints (conf : Configuration) (s : Scenario)
    (c : TotalPolicyCostCalculator) (h : (s.getPrice c.mGHGName "USA" 1).isSome) :
    (calculateAbatementCostCurve conf s c).2.1.mNumPoints = c.mNumPoints := by
  rw [calcACC_active_eq conf s c h]
  have hun := foldl_regionalStep_unchanged conf s
    ((createCostCurvesByPeriod s
      (TotalPolicyCostCalculator.runTrials s (baselineStored s c)).2.1).mPeriodCostCurves)
    ((createCostCurvesByPeriod s
      (TotalPolicyCostCalculator.runTrials s (baselineStored s c)).2.1).mPeriodCostCurves.getD 0 [])
    (createCostCurvesByPeriod s
      (TotalPolicyCostCalculator.runTrials s (baselineStored s c)).2.1)
  show (createRegionalCostCurves conf s (createCostCurvesByPeriod s
      (TotalPolicyCostCalculator.runTrials s (baselineStored s c)).2.1)).mNumPoints = _
  unfold createRegionalCostCurves
  exact hun.2.1

/-! ### Concrete instantiations used by witnesses and counterexamples -/

/-- A small concrete configuration: gas "CO2", one sweep point, zero
discount rate, start year 2000. -/
def wConf : Configuration :=
  { abatedGas := "CO2", numPoints := 1, discountRate := 0, discountStartYear := 2000 }

def wBaselineQ : RegionCurveMap := [("USA", { points := [⟨2000, 4⟩, ⟨2010, 4⟩] })]
def wBaselineT : RegionCurveMap := [("USA", { points := [⟨2000, 8⟩, ⟨2010, 8⟩] })]
def wTrialQ : RegionCurveMap := [("USA", { points := [⟨2000, 10⟩, ⟨2010, 10⟩] })]
def wTrialT : RegionCurveMap := [("USA", { points := [⟨2000, 0⟩, ⟨2010, 0⟩] })]

/-- A two-period scenario oracle with one region "USA", an active policy
market everywhere, baseline emissions 4 under tax 8, and zero-tax
(post-run) emissions 10 under tax 0. -/
def wS : Scenario :=
  { modeltime := { maxper := 2, perToYr := fun per => 2000 + 10 * (per : Int), endYear := 2010 }
    getPrice := fun _ _ _ => some 8
    emissionsQCurves := fun n _ => if n = 0 then wBaselineQ else wTrialQ
    emissionsTCurves := fun n _ => if n = 0 then wBaselineT else wTrialT
    runSuccess := fun _ => true }

/-- `wS` with every sweep run reporting failure. -/
def wSfail : Scenario := { wS with runSuccess := fun _ => false }

/-- `wS` with no active policy market anywhere. -/
def wSnone : Scenario := { wS with getPrice := fun _ _ _ => none }

/-- `wS` with a policy market reported only for region "USA" at period 1;
every other (region, period) query reports no market. -/
def wSusaOnly : Scenario :=
  { wS with getPrice := fun _ region per =>
      if region = "USA" ∧ per = 1 then some 8 else none }

/-- A one-period scenario whose baseline (facade state 0) and trial-0
(facade state 1) quantity maps hold different curves, separating the
"baseline" and "trial 0" reference quantities. -/
def cexS : Scenario :=
  { modeltime := { maxper := 1, perToYr := fun _ => 2000, endYear := 2000 }
    getPrice := fun _ _ _ => some 8
    emissionsQCurves := fun n _ =>
      if n = 0 then [("USA", { points := [⟨2000, 4⟩] })]
      else [("USA", { points := [⟨2000, 10⟩] })]
    emissionsTCurves := fun n _ =>
      if n = 0 then [("USA", { points := [⟨2000, 8⟩] })]
      else [("USA", { points := [⟨2000, 0⟩] })]
    runSuccess := fun _ => true }

/-! ### The claims -/

/-- C3: if the baseline policy-market price query returns the no-market
sentinel, `calculateAbatementCostCurve` returns true without running any
trial (empty interaction trace) or producing any cost curves, and a
subsequent `printOutput` call is a no-op. -/
theorem C3_no_market_vacuous_success (conf : Configuration) (s : Scenario)
    (h : s.getPrice conf.abatedGas "USA" 1 = none) :
    calculateAbatementCostCurve conf s (TotalPolicyCostCalculator.create conf) =
      (true, TotalPolicyCostCalculator.create conf, []) ∧
    (calculateAbatementCostCurve conf s
      (TotalPolicyCostCalculator.create conf)).2.1.mPeriodCostCurves = [] ∧
    (calculateAbatementCostCurve conf s
      (TotalPolicyCostCalculator.create conf)).2.1.mRegionalCostCurves = [] ∧
    (calculateAbatementCostCurve conf s
      (TotalPolicyCostCalculator.create conf)).2.1.mRegionalCosts = [] ∧
    printOutput (calculateAbatementCostCurve conf s
      (TotalPolicyCostCalculator.create conf)).2.1 = none := by
  have hskip := calcACC_skip conf s (TotalPolicyCostCalculator.create conf)
    (by show (s.getPrice conf.abatedGas "USA" 1).isNone = true
        rw [h]
        rfl)
  refine ⟨hskip, ?_, ?_, ?_, ?_⟩ <;> rw [hskip] <;> rfl

/-- C3 witness: in the concrete no-market world the computation is skipped
and output is suppressed. -/
theorem C3_witness :
    wSnone.getPrice wConf.abatedGas "USA" 1 = none ∧
    printOutput (calculateAbatementCostCurve wConf wSnone
      (TotalPolicyCostCalculator.create wConf)).2.1 = none :=
  ⟨rfl, (C3_no_market_vacuous_success wConf wSnone rfl).2.2.2.2⟩

/-- C8: with an active policy market, `mRanCosts` is set to true
unconditionally at the end of the computation — for every scenario oracle,
including those whose trial runs all fail — so a subsequent `printOutput`
produces output. -/
theorem C8_ranCosts_set_unconditionally (conf : Configuration) (s : Scenario)
    (h : (s.getPrice conf.abatedGas "USA" 1).isSome) :
    (calculateAbatementCostCurve conf s
      (TotalPolicyCostCalculator.create conf)).2.1.mRanCosts = true ∧
    (printOutput (calculateAbatementCostCurve conf s
      (TotalPolicyCostCalculator.create conf)).2.1).isSome := by
  have h1 := calcACC_mRanCosts conf s (TotalPolicyCostCalculator.create conf) h
  refine ⟨h1, ?_⟩
  unfold printOutput
  rw [h1]
  rfl

/-- C8 witness: in the concrete world where every trial run fails, the
returned success flag is false and yet output is produced. -/
theorem C8_witness :
    (wSfail.getPrice wConf.abatedGas "USA" 1).isSome ∧
    (calculateAbatementCostCurve wConf wSfail
      (TotalPolicyCostCalculator.create wConf)).1 = false ∧
    (calculateAbatementCostCurve wConf wSfail
      (TotalPolicyCostCalculator.create wConf)).2.1.mRanCosts = true ∧
    (printOutput (calculateAbatementCostCurve wConf wSfail
      (TotalPolicyCostCalculator.create wConf)).2.1).isSome :=
  ⟨by decide, by decide,
    (C8_ranCosts_set_unconditionally wConf wSfail (by decide)).1,
    (C8_ranCosts_set_unconditionally wConf wSfail (by decide)).2⟩

/-- C9: whether the computation is skipped or performed depends only on the
marketplace price for the fixed region "USA" at period 1: two scenarios
agreeing on that single query behave identically, and the computation is
performed exactly when that query reports a price. -/
theorem C9_precondition_usa_period1_only (conf : Configuration) (s1 s2 : Scenario)
    (h : s1.getPrice conf.abatedGas "USA" 1 = s2.getPrice conf.abatedGas "USA" 1) :
    ((calculateAbatementCostCurve conf s1
        (TotalPolicyCostCalculator.create conf)).2.1.mRanCosts =
      (calculateAbatementCostCurve conf s2
        (TotalPolicyCostCalculator.create conf)).2.1.mRanCosts) ∧
    ((calculateAbatementCostCurve conf s1
        (TotalPolicyCostCalculator.create conf)).2.1.mRanCosts =
      (s1.getPrice conf.abatedGas "USA" 1).isSome) := by
  have key : ∀ s : Scenario,
      (calculateAbatementCostCurve conf s
        (TotalPolicyCostCalculator.create conf)).2.1.mRanCosts =
        (s.getPrice conf.abatedGas "USA" 1).isSome := by
    intro s
    cases ho : s.getPrice conf.abatedGas "USA" 1 with
    | none =>
      rw [calcACC_skip conf s _
        (by show (s.getPrice conf.abatedGas "USA" 1).isNone = true
            rw [ho]
            rfl)]
      rfl
    | some v =>
      rw [calcACC_mRanCosts conf s _
        (by show (s.getPrice conf.abatedGas "USA" 1).isSome = true
            rw [ho]
            rfl)]
      rfl
  exact ⟨by rw [key s1, key s2, h], key s1⟩

/-- C9 witness: a scenario with markets everywhere and one with a market
only at ("USA", period 1) agree on that query and behave identically;
the computation runs in both. -/
theorem C9_witness :
    wS.getPrice wConf.abatedGas "USA" 1 = wSusaOnly.getPrice wConf.abatedGas "USA" 1 ∧
    wSusaOnly.getPrice wConf.abatedGas "France" 1 = none ∧
    ((calculateAbatementCostCurve wConf wS
        (TotalPolicyCostCalculator.create wConf)).2.1.mRanCosts =
      (calculateAbatementCostCurve wConf wSusaOnly
        (TotalPolicyCostCalculator.create wConf)).2.1.mRanCosts) :=
  ⟨by decide, by decide,
    (C9_precondition_usa_period1_only wConf wS wSusaOnly (by decide)).1⟩

/-- C10: `InputDriver::calcEmissionsDriver` is total: when no input named
`mInputName` is in the input vector it returns exactly 0.0; otherwise it
returns the found input's physical demand for the period.  The null lookup
result is guarded, never dereferenced. -/
theorem C10_calcEmissionsDriver_total (d : InputDriver) (aInputs : List IInput)
    (aOutputs : List IOutput) (aPeriod : Nat) :
    ((∀ i ∈ aInputs, i.name ≠ d.mInputName) →
      d.calcEmissionsDriver aInputs aOutputs aPeriod = 0) ∧
    (∀ i, FunctionUtils.getInput aInputs d.mInputName = some i →
      i ∈ aInputs ∧ i.name = d.mInputName ∧
        d.calcEmissionsDriver aInputs aOutputs aPeriod = i.physicalDemand aPeriod) := by
  constructor
  · intro hnone
    unfold InputDriver.calcEmissionsDriver
    have hfind : FunctionUtils.getInput aInputs d.mInputName = none := by
      unfold FunctionUtils.getInput
      apply List.find?_eq_none.mpr
      intro i hi
      simp [hnone i hi]
    rw [hfind]
  · intro i hfind
    unfold InputDriver.calcEmissionsDriver
    rw [hfind]
    refine ⟨List.mem_of_find?_eq_some hfind, ?_, rfl⟩
    have hp := List.find?_some hfind
    simpa using hp

/-- C10 witness: a found input yields its demand, an absent name yields
zero. -/
theorem C10_witness :
    InputDriver.calcEmissionsDriver ⟨"coal"⟩
      [⟨"gas", fun _ => 3⟩, ⟨"coal", fun _ => 7⟩] [] 2 = 7 ∧
    InputDriver.calcEmissionsDriver ⟨"oil"⟩ [⟨"gas", fun _ => 3⟩] [] 0 = 0 := by
  constructor
  · exact ((C10_calcEmissionsDriver_total ⟨"coal"⟩
      [⟨"gas", fun _ => 3⟩, ⟨"coal", fun _ => 7⟩] [] 2).2
      ⟨"coal", fun _ => 7⟩ rfl).2.2
  · refine (C10_calcEmissionsDriver_total ⟨"oil"⟩ [⟨"gas", fun _ => 3⟩] [] 0).1 ?_
    intro i hi
    rcases List.mem_singleton.mp hi with rfl
    decide

/-- C4: a failing trial run does not abort the sweep: the trace still
contains all `mNumPoints` runs, every trial's emissions-quantity and
emissions-price curves are snapshotted into the trial-indexed storage
(whatever the run's success report), and the boolean returned by the
top-level computation is the AND of all per-trial success flags. -/
theorem C4_trial_failure_policy (conf : Configuration) (s : Scenario)
    (h : (s.getPrice conf.abatedGas "USA" 1).isSome) :
    (((calculateAbatementCostCurve conf s
        (TotalPolicyCostCalculator.create conf)).2.2).filterMap runTag).length =
      conf.numPoints ∧
    (∀ t, t < conf.numPoints →
      (calculateAbatementCostCurve conf s
        (TotalPolicyCostCalculator.create conf)).2.1.mEmissionsQCurves.getD t [] =
          s.emissionsQCurves (t + 1) conf.abatedGas ∧
      (calculateAbatementCostCurve conf s
        (TotalPolicyCostCalculator.create conf)).2.1.mEmissionsTCurves.getD t [] =
          s.emissionsTCurves (t + 1) conf.abatedGas) ∧
    (calculateAbatementCostCurve conf s (TotalPolicyCostCalculator.create conf)).1 =
      (List.range conf.numPoints).all s.runSuccess := by
  have hN : (TotalPolicyCostCalculator.create conf).mNumPoints = conf.numPoints := rfl
  have hG : (TotalPolicyCostCalculator.create conf).mGHGName = conf.abatedGas := rfl
  refine ⟨?_, ?_, ?_⟩
  · rw [calcACC_trace conf s _ h, hG, hN, filterMap_runTag_sweepBlocks, List.length_range]
  · intro t ht
    constructor
    · rw [calcACC_mEmissionsQCurves conf s _ h, hG, hN,
        sweepFinalQ_getD s conf.abatedGas conf.numPoints t (by omega), if_pos ht]
    · rw [calcACC_mEmissionsTCurves conf s _ h, hG, hN,
        sweepFinalT_getD s conf.abatedGas conf.numPoints t (by omega), if_pos ht]
  · rw [calcACC_success conf s _ h, hN]

/-- C4 witness: in the all-runs-fail world the single trial still runs, its
curves are stored, and the result is false. -/
theorem C4_witness :
    (wSfail.getPrice wConf.abatedGas "USA" 1).isSome ∧
    (((calculateAbatementCostCurve wConf wSfail
        (TotalPolicyCostCalculator.create wConf)).2.2).filterMap runTag).length =
      wConf.numPoints ∧
    (calculateAbatementCostCurve wConf wSfail
      (TotalPolicyCostCalculator.create wConf)).2.1.mEmissionsQCurves.getD 0 [] =
        wSfail.emissionsQCurves 1 wConf.abatedGas ∧
    (calculateAbatementCostCurve wConf wSfail (TotalPolicyCostCalculator.create wConf)).1 =
      (List.range wConf.numPoints).all wSfail.runSuccess :=
  ⟨by decide,
    (C4_trial_failure_policy wConf wSfail (by decide)).1,
    ((C4_trial_failure_policy wConf wSfail (by decide)).2.1 0 (by decide)).1,
    (C4_trial_failure_policy wConf wSfail (by decide)).2.2⟩

/-- C2: for `N ≥ 1` sweep points the computation performs exactly `N` runs
tagged `0 .. N - 1` in increasing order; the baseline's tag `N` is never
run; for every trial `t` and every region of the baseline price map, a
`setTax` event carrying the per-period taxes `(t / N) * baselineTax`
precedes the run tagged `t`; and the baseline curves (the facade's
pre-sweep state-0 snapshots) are stored at trial index `N`. -/
theorem C2_sweep_runs_and_taxes (conf : Configuration) (s : Scenario)
    (_hN1 : 1 ≤ conf.numPoints)
    (h : (s.getPrice conf.abatedGas "USA" 1).isSome) :
    ((calculateAbatementCostCurve conf s
        (TotalPolicyCostCalculator.create conf)).2.2).filterMap runTag =
      List.range conf.numPoints ∧
    SimEvent.run conf.numPoints ∉
      (calculateAbatementCostCurve conf s
        (TotalPolicyCostCalculator.create conf)).2.2 ∧
    (∀ t, t < conf.numPoints → ∀ region curve,
      (region, curve) ∈ s.emissionsTCurves 0 conf.abatedGas →
      ∃ l1 l2 l3,
        (calculateAbatementCostCurve conf s
          (TotalPolicyCostCalculator.create conf)).2.2 =
          l1 ++ SimEvent.setTax conf.abatedGas region
              ((List.range s.modeltime.maxper).map (fun per =>
                ((t : ℚ) / (conf.numPoints : ℚ)) * curve.getY (periodYear s per)))
            :: (l2 ++ SimEvent.run t :: l3)) ∧
    (calculateAbatementCostCurve conf s
      (TotalPolicyCostCalculator.create conf)).2.1.mEmissionsQCurves.getD
        conf.numPoints [] = s.emissionsQCurves 0 conf.abatedGas ∧
    (calculateAbatementCostCurve conf s
      (TotalPolicyCostCalculator.create conf)).2.1.mEmissionsTCurves.getD
        conf.numPoints [] = s.emissionsTCurves 0 conf.abatedGas := by
  have hN : (TotalPolicyCostCalculator.create conf).mNumPoints = conf.numPoints := rfl
  have hG : (TotalPolicyCostCalculator.create conf).mGHGName = conf.abatedGas := rfl
  have ha : ((calculateAbatementCostCurve conf s
      (TotalPolicyCostCalculator.create conf)).2.2).filterMap runTag =
      List.range conf.numPoints := by
    rw [calcACC_trace conf s _ h, hG, hN, filterMap_runTag_sweepBlocks]
  refine ⟨ha, ?_, ?_, ?_, ?_⟩
  · intro hmem
    have hin : conf.numPoints ∈ List.range conf.numPoints := by
      rw [← ha]
      exact List.mem_filterMap.mpr ⟨_, hmem, rfl⟩
    exact absurd (List.mem_range.mp hin) (lt_irrefl _)
  · intro t ht region curve hmem
    rw [calcACC_trace conf s _ h, hG, hN]
    have htx : (List.range s.modeltime.maxper).map (fun per =>
        ((t : ℚ) / (conf.numPoints : ℚ)) * curve.getY (periodYear s per)) =
        trialTaxes s curve ((t : ℚ) / (conf.numPoints : ℚ)) := by
      unfold trialTaxes
      apply List.map_congr_left
      intro per _
      rw [mul_comm]
    rw [htx]
    exact sweepBlocks_split s conf.abatedGas conf.numPoints
      (s.emissionsTCurves 0 conf.abatedGas) t conf.numPoints ht region curve hmem
  · rw [calcACC_mEmissionsQCurves conf s _ h, hG, hN,
      sweepFinalQ_getD s conf.abatedGas conf.numPoints conf.numPoints (by omega),
      if_neg (lt_irrefl _)]
  · rw [calcACC_mEmissionsTCurves conf s _ h, hG, hN,
      sweepFinalT_getD s conf.abatedGas conf.numPoints conf.numPoints (by omega),
      if_neg (lt_irrefl _)]

/-- C2 witness: the concrete one-point sweep performs exactly the run
tagged 0 and stores the baseline at index 1. -/
theorem C2_witness :
    1 ≤ wConf.numPoints ∧
    (wS.getPrice wConf.abatedGas "USA" 1).isSome ∧
    ((calculateAbatementCostCurve wConf wS
        (TotalPolicyCostCalculator.create wConf)).2.2).filterMap runTag =
      List.range wConf.numPoints ∧
    (calculateAbatementCostCurve wConf wS
      (TotalPolicyCostCalculator.create wConf)).2.1.mEmissionsTCurves.getD
        wConf.numPoints [] = wS.emissionsTCurves 0 wConf.abatedGas :=
  ⟨by decide, by decide,
    (C2_sweep_runs_and_taxes wConf wS (by decide) (by decide)).1,
    (C2_sweep_runs_and_taxes wConf wS (by decide) (by decide)).2.2.2.2⟩

/-- C6: after aggregation from a fresh calculator, the global undiscounted
cost is the exact sum of the stored per-region undiscounted costs, the
global discounted cost is the exact sum of the stored per-region discounted
costs, and the region literally named "global" appears in none of the
per-region result maps (so it contributes to neither sum). -/
theorem C6_global_is_sum_of_regions (conf : Configuration) (s : Scenario)
    (h : (s.getPrice conf.abatedGas "USA" 1).isSome)
    (hkeys : (mapKeys (aggEntries s (TotalPolicyCostCalculator.create conf))).Nodup) :
    (calculateAbatementCostCurve conf s
        (TotalPolicyCostCalculator.create conf)).2.1.mGlobalCost =
      (((calculateAbatementCostCurve conf s
        (TotalPolicyCostCalculator.create conf)).2.1.mRegionalCosts).map Prod.snd).sum ∧
    (calculateAbatementCostCurve conf s
        (TotalPolicyCostCalculator.create conf)).2.1.mGlobalDiscountedCost =
      (((calculateAbatementCostCurve conf s
        (TotalPolicyCostCalculator.create conf)).2.1.mRegionalDiscountedCosts).map
          Prod.snd).sum ∧
    "global" ∉ mapKeys (calculateAbatementCostCurve conf s
      (TotalPolicyCostCalculator.create conf)).2.1.mRegionalCosts ∧
    "global" ∉ mapKeys (calculateAbatementCostCurve conf s
      (TotalPolicyCostCalculator.create conf)).2.1.mRegionalDiscountedCosts ∧
    "global" ∉ mapKeys (calculateAbatementCostCurve conf s
      (TotalPolicyCostCalculator.create conf)).2.1.mRegionalCostCurves := by
  have hnd : (aggKeys s (TotalPolicyCostCalculator.create conf)).Nodup :=
    aggKeys_nodup s _ hkeys
  have hfreshCond : (mapKeys ([] : List (String × ℚ)) ++
      aggKeys s (TotalPolicyCostCalculator.create conf)).Nodup := by simpa using hnd
  have hfreshCondCurve : (mapKeys ([] : RegionCurveMap) ++
      aggKeys s (TotalPolicyCostCalculator.create conf)).Nodup := by simpa using hnd
  have hRC : (calculateAbatementCostCurve conf s
      (TotalPolicyCostCalculator.create conf)).2.1.mRegionalCosts =
      (aggKeys s (TotalPolicyCostCalculator.create conf)).map (fun k =>
        (k, regionalCostFor conf s
          (pipelinePcs s (TotalPolicyCostCalculator.create conf)) k)) := by
    rw [calcACC_mRegionalCosts conf s _ h,
      show (TotalPolicyCostCalculator.create conf).mRegionalCosts = [] from rfl,
      foldl_mapInsert_fresh _ _ [] hfreshCond, List.nil_append]
  have hRD : (calculateAbatementCostCurve conf s
      (TotalPolicyCostCalculator.create conf)).2.1.mRegionalDiscountedCosts =
      (aggKeys s (TotalPolicyCostCalculator.create conf)).map (fun k =>
        (k, discountedCostFor conf s
          (pipelinePcs s (TotalPolicyCostCalculator.create conf)) k)) := by
    rw [calcACC_mRegionalDiscountedCosts conf s _ h,
      show (TotalPolicyCostCalculator.create conf).mRegionalDiscountedCosts = [] from rfl,
      foldl_mapInsert_fresh _ _ [] hfreshCond, List.nil_append]
  have hRV : (calculateAbatementCostCurve conf s
      (TotalPolicyCostCalculator.create conf)).2.1.mRegionalCostCurves =
      (aggKeys s (TotalPolicyCostCalculator.create conf)).map (fun k =>
        (k, regionYearCurve s
          (pipelinePcs s (TotalPolicyCostCalculator.create conf)) k)) := by
    rw [calcACC_mRegionalCostCurves conf s _ h,
      show (TotalPolicyCostCalculator.create conf).mRegionalCostCurves = [] from rfl,
      foldl_mapInsert_fresh _ _ [] hfreshCondCurve, List.nil_append]
  refine ⟨?_, ?_, ?_, ?_, ?_⟩
  · rw [calcACC_mGlobalCost conf s _ h, hRC,
      show (TotalPolicyCostCalculator.create conf).mGlobalCost = 0 from rfl, zero_add,
      List.map_map]
    unfold aggKeys
    rw [List.map_map]
    rfl
  · rw [calcACC_mGlobalDiscountedCost conf s _ h, hRD,
      show (TotalPolicyCostCalculator.create conf).mGlobalDiscountedCost = 0 from rfl,
      zero_add, List.map_map]
    unfold aggKeys
    rw [List.map_map]
    rfl
  · rw [hRC, mapKeys_tabulate]
    exact not_global_mem_aggKeys s _
  · rw [hRD, mapKeys_tabulate]
    exact not_global_mem_aggKeys s _
  · rw [hRV, mapKeys_tabulate]
    exact not_global_mem_aggKeys s _

/-- C6 witness: in the concrete world the global cost (240) equals the sum
of the per-region costs. -/
theorem C6_witness :
    (mapKeys (aggEntries wS (TotalPolicyCostCalculator.create wConf))).Nodup ∧
    (calculateAbatementCostCurve wConf wS
        (TotalPolicyCostCalculator.create wConf)).2.1.mGlobalCost =
      (((calculateAbatementCostCurve wConf wS
        (TotalPolicyCostCalculator.create wConf)).2.1.mRegionalCosts).map Prod.snd).sum ∧
    "global" ∉ mapKeys (calculateAbatementCostCurve wConf wS
      (TotalPolicyCostCalculator.create wConf)).2.1.mRegionalCosts :=
  ⟨by decide,
    (C6_global_is_sum_of_regions wConf wS (by decide) (by decide)).1,
    (C6_global_is_sum_of_regions wConf wS (by decide) (by decide)).2.2.1⟩

/-- C5: for every aggregated region, the stored year-to-cost curve has one
point per period at that period's calendar year whose value is the period
cost curve's integral from 0 to the unbounded upper limit (which behaves as
an integral clamped to the curve's maximum observed reduction); the stored
undiscounted regional cost is that curve's integral from the configured
start year to the model's end year; and the stored discounted regional cost
is that curve's discounted value over the same bounds at the configured
rate. -/
theorem C5_regional_aggregation (conf : Configuration) (s : Scenario) (region : String)
    (h : (s.getPrice conf.abatedGas "USA" 1).isSome)
    (hmem : region ∈ aggKeys s (TotalPolicyCostCalculator.create conf))
    (hyears : ∀ i j, i < j → j < s.modeltime.maxper →
      s.modeltime.perToYr i < s.modeltime.perToYr j)
    (hbound : ∀ per, per < s.modeltime.maxper →
      ∀ pt ∈ (rcGet ((pipelinePcs s (TotalPolicyCostCalculator.create conf)).getD per [])
        region).points, pt.x ≤ DBL_MAX) :
    ∃ yc : PointSetCurve,
      mapLookup (calculateAbatementCostCurve conf s
        (TotalPolicyCostCalculator.create conf)).2.1.mRegionalCostCurves region =
          some yc ∧
      yc.points.Perm ((List.range s.modeltime.maxper).map (fun per =>
        ({ x := periodYear s per
           y := (rcGet ((pipelinePcs s (TotalPolicyCostCalculator.create conf)).getD per [])
             region).getIntegral 0 DBL_MAX } : XYDataPoint))) ∧
      mapLookup (calculateAbatementCostCurve conf s
        (TotalPolicyCostCalculator.create conf)).2.1.mRegionalCosts region =
          some (yc.getIntegral (conf.discountStartYear : ℚ) (s.modeltime.endYear : ℚ)) ∧
      mapLookup (calculateAbatementCostCurve conf s
        (TotalPolicyCostCalculator.create conf)).2.1.mRegionalDiscountedCosts region =
          some (yc.getDiscountedValue (conf.discountStartYear : ℚ)
            (s.modeltime.endYear : ℚ) conf.discountRate) ∧
      (∀ per, per < s.modeltime.maxper → ∀ hi : ℚ,
        (∀ pt ∈ (rcGet ((pipelinePcs s
          (TotalPolicyCostCalculator.create conf)).getD per []) region).points, pt.x ≤ hi) →
        (rcGet ((pipelinePcs s (TotalPolicyCostCalculator.create conf)).getD per [])
            region).getIntegral 0 DBL_MAX =
          (rcGet ((pipelinePcs s (TotalPolicyCostCalculator.create conf)).getD per [])
            region).getIntegral 0 hi) := by
  refine ⟨regionYearCurve s (pipelinePcs s (TotalPolicyCostCalculator.create conf)) region,
    ?_, ?_, ?_, ?_, ?_⟩
  · rw [calcACC_mRegionalCostCurves conf s _ h]
    exact foldl_mapInsert_lookup _ _ _ region hmem
  · show (((List.range s.modeltime.maxper).map _).foldl addPointList []).Perm _
    have hnd : (((List.range s.modeltime.maxper).map (fun per =>
        ({ x := periodYear s per
           y := (rcGet ((pipelinePcs s
             (TotalPolicyCostCalculator.create conf)).getD per [])
             region).getIntegral 0 DBL_MAX } : XYDataPoint))).map XYDataPoint.x).Nodup := by
      rw [List.map_map]
      apply List.Nodup.map_on ?_ (List.nodup_range _)
      intro i hi j hj hEq
      by_contra hne
      have hyr : ∀ a b : Nat, a < b → b < s.modeltime.maxper →
          (XYDataPoint.x ∘ fun per =>
            ({ x := periodYear s per
               y := (rcGet ((pipelinePcs s
                 (TotalPolicyCostCalculator.create conf)).getD per [])
                 region).getIntegral 0 DBL_MAX } : XYDataPoint)) a ≠
          (XYDataPoint.x ∘ fun per =>
            ({ x := periodYear s per
               y := (rcGet ((pipelinePcs s
                 (TotalPolicyCostCalculator.create conf)).getD per [])
                 region).getIntegral 0 DBL_MAX } : XYDataPoint)) b := by
        intro a b hab hbm
        show periodYear s a ≠ periodYear s b
        unfold periodYear
        have hlt := hyears a b hab hbm
        intro hcast
        have : s.modeltime.perToYr a = s.modeltime.perToYr b := by exact_mod_cast hcast
        omega
      rcases Nat.lt_or_ge i j with hij | hij
      · exact hyr i j hij (List.mem_range.mp hj) hEq
      · have hji : j < i := by omega
        exact hyr j i hji (List.mem_range.mp hi) hEq.symm
    have hperm := foldl_addPointList_perm
      ((List.range s.modeltime.maxper).map (fun per =>
        ({ x := periodYear s per
           y := (rcGet ((pipelinePcs s
             (TotalPolicyCostCalculator.create conf)).getD per [])
             region).getIntegral 0 DBL_MAX } : XYDataPoint))) [] (by simpa using hnd)
    simpa using hperm
  · rw [calcACC_mRegionalCosts conf s _ h]
    exact foldl_mapInsert_lookup _ _ _ region hmem
  · rw [calcACC_mRegionalDiscountedCosts conf s _ h]
    exact foldl_mapInsert_lookup _ _ _ region hmem
  · intro per hper hi hhi
    exact getIntegral_clamp _ 0 DBL_MAX hi (hbound per hper) hhi

/-- C5 witness: the concrete world's "USA" curve and stored costs. -/
theorem C5_witness :
    "USA" ∈ aggKeys wS (TotalPolicyCostCalculator.create wConf) ∧
    ∃ yc : PointSetCurve,
      mapLookup (calculateAbatementCostCurve wConf wS
        (TotalPolicyCostCalculator.create wConf)).2.1.mRegionalCostCurves "USA" =
          some yc ∧
      mapLookup (calculateAbatementCostCurve wConf wS
        (TotalPolicyCostCalculator.create wConf)).2.1.mRegionalCosts "USA" =
          some (yc.getIntegral (wConf.discountStartYear : ℚ)
            (wS.modeltime.endYear : ℚ)) := by
  have hw := C5_regional_aggregation wConf wS "USA" (by decide) (by decide)
    (by intro i j hij hj
        show (2000 + 10 * (i : Int)) < 2000 + 10 * (j : Int)
        omega)
    (by intro per hper
        have hcase : per = 0 ∨ per = 1 := by
          have hm : wS.modeltime.maxper = 2 := rfl
          omega
        have hkey : ∀ lst : List XYDataPoint,
            (∀ pt ∈ lst, ¬ DBL_MAX < pt.x) → ∀ pt ∈ lst, pt.x ≤ DBL_MAX :=
          fun lst hl pt hpt => not_lt.mp (hl pt hpt)
        rcases hcase with rfl | rfl
        · exact hkey _ (by decide)
        · exact hkey _ (by decide))
  obtain ⟨yc, h1, _, h3, _, _⟩ := hw
  exact ⟨by decide, yc, h1, h3⟩

/-- The calculator state left by the full computation on the concrete
two-period world. -/
def wCalc : TotalPolicyCostCalculator :=
  (calculateAbatementCostCurve wConf wS (TotalPolicyCostCalculator.create wConf)).2.1

/-- C1 (amended): for every period and every region of the TRIAL-0
emissions-quantity map, `createCostCurvesByPeriod` builds a period cost
curve whose points are, one per trial index `t` in `[0, N]`,
x = trial-0 quantity minus trial-t quantity and y = trial-t price at the
period's year; when these x values are pairwise distinct the curve has
exactly `N + 1` points, and its point list is always sorted by x
regardless of insertion order. -/
theorem C1_period_cost_curve (s : Scenario) (c : TotalPolicyCostCalculator) (per : Nat)
    (hper : per < s.modeltime.maxper) (region : String) (q0curve : PointSetCurve)
    (hq0 : mapLookup (c.mEmissionsQCurves.getD 0 []) region = some q0curve)
    (hdist : ((List.range (c.mNumPoints + 1)).map (fun trial =>
        q0curve.getY (periodYear s per) -
          (rcGet (c.mEmissionsQCurves.getD trial []) region).getY
            (periodYear s per))).Nodup) :
    ∃ curve : PointSetCurve,
      mapLookup ((createCostCurvesByPeriod s c).mPeriodCostCurves.getD per []) region =
        some curve ∧
      PointsSorted curve.points ∧
      curve.points.Perm ((List.range (c.mNumPoints + 1)).map (fun trial =>
        ({ x := q0curve.getY (periodYear s per) -
             (rcGet (c.mEmissionsQCurves.getD trial []) region).getY (periodYear s per)
           y := (rcGet (c.mEmissionsTCurves.getD trial []) region).getY
             (periodYear s per) } : XYDataPoint))) ∧
      curve.points.length = c.mNumPoints + 1 := by
  have hpc : (createCostCurvesByPeriod s c).mPeriodCostCurves.getD per [] =
      (c.mEmissionsQCurves.getD 0 []).map (fun e =>
        (e.1, periodCostCurveFor c.mEmissionsQCurves c.mEmissionsTCurves c.mNumPoints
          (periodYear s per) per e.1 e.2)) := by
    show (periodCurvesOf s c.mNumPoints c.mEmissionsQCurves
      c.mEmissionsTCurves).getD per [] = _
    exact periodCurvesOf_getD s c.mNumPoints _ _ per hper
  have hperm := foldl_addPointList_perm
    ((List.range (c.mNumPoints + 1)).map (fun trial =>
      ({ x := q0curve.getY (periodYear s per) -
           (rcGet (c.mEmissionsQCurves.getD trial []) region).getY (periodYear s per)
         y := (rcGet (c.mEmissionsTCurves.getD trial []) region).getY
           (periodYear s per) } : XYDataPoint))) []
    (by simpa [List.map_map, Function.comp] using hdist)
  refine ⟨periodCostCurveFor c.mEmissionsQCurves c.mEmissionsTCurves c.mNumPoints
    (periodYear s per) per region q0curve, ?_, ?_, ?_, ?_⟩
  · rw [hpc, mapLookup_map_entry, hq0]
    rfl
  · exact foldl_addPointList_sorted _ [] List.chain'_nil
  · exact hperm
  · have hlen := hperm.length_eq
    rw [List.nil_append, List.length_map, List.length_range] at hlen
    exact hlen

/-- C1 counterexample: the claim as stated is false on the code.  In the
concrete world whose baseline (trial N) quantity is 4 and whose trial-0
quantity is 10, the built period cost curve is {(0, 0), (6, 8)}: its
x-coordinates measure reduction against TRIAL 0, and the claim's value
`baselineQuantity − trialQuantity(0)` = 4 − 10 = −6 is the x-coordinate of
no point of the curve. -/
theorem C1_counterexample :
    mapLookup (((calculateAbatementCostCurve wConf cexS
        (TotalPolicyCostCalculator.create wConf)).2.1.mPeriodCostCurves).getD 0 []) "USA" =
      some { points := [{ x := 0, y := 0 }, { x := 6, y := 8 }]
             title := "USA period cost curve"
             numericalLabel := 0 } ∧
    (rcGet ((calculateAbatementCostCurve wConf cexS
        (TotalPolicyCostCalculator.create wConf)).2.1.mEmissionsQCurves.getD
          wConf.numPoints []) "USA").getY (periodYear cexS 0) -
      (rcGet ((calculateAbatementCostCurve wConf cexS
        (TotalPolicyCostCalculator.create wConf)).2.1.mEmissionsQCurves.getD 0 [])
          "USA").getY (periodYear cexS 0) = -6 ∧
    (∀ pt ∈ ({ points := [{ x := 0, y := 0 }, { x := 6, y := 8 }]
               title := "USA period cost curve"
               numericalLabel := 0 } : PointSetCurve).points,
      pt.x ≠ -6) := by
  refine ⟨by decide, by decide, by decide⟩

/-- C1 witness: the amended statement instantiated on the concrete world. -/
theorem C1_witness :
    mapLookup ((wCalc).mEmissionsQCurves.getD 0 []) "USA" = some (rcGet wTrialQ "USA") ∧
    ∃ curve : PointSetCurve,
      mapLookup ((createCostCurvesByPeriod wS wCalc).mPeriodCostCurves.getD 0 []) "USA" =
        some curve ∧
      PointsSorted curve.points ∧
      curve.points.length = wCalc.mNumPoints + 1 := by
  have hw := C1_period_cost_curve wS wCalc 0 (by decide) "USA" (rcGet wTrialQ "USA")
    (by decide) (by decide)
  obtain ⟨curve, h1, h2, _, h4⟩ := hw
  exact ⟨by decide, curve, h1, h2, h4⟩

/-- The first invocation of the top-level entry point on a freshly
constructed calculator. -/
def firstCall (conf : Configuration) (s : Scenario) :
    Bool × TotalPolicyCostCalculator × List SimEvent :=
  calculateAbatementCostCurve conf s (TotalPolicyCostCalculator.create conf)

/-- A second invocation of the top-level entry point on the same calculator
instance against the same unmodified facade state. -/
def secondCall (conf : Configuration) (s : Scenario) :
    Bool × TotalPolicyCostCalculator × List SimEvent :=
  calculateAbatementCostCurve conf s (firstCall conf s).2.1

/-- C7 (amended): calling `calculateAbatementCostCurve` twice on the same
unmodified facade state reproduces identical per-region results (regional
cost maps, discounted cost maps, regional curves, period curves and the
success flag), but the global accumulators carry over: after the second
call `mGlobalCost` and `mGlobalDiscountedCost` are twice their first-call
values, so the invocation is not idempotent. -/
theorem C7_second_call_accumulates_globals (conf : Configuration) (s : Scenario)
    (h : (s.getPrice conf.abatedGas "USA" 1).isSome) :
    (secondCall conf s).2.1.mRegionalCosts = (firstCall conf s).2.1.mRegionalCosts ∧
    (secondCall conf s).2.1.mRegionalDiscountedCosts =
      (firstCall conf s).2.1.mRegionalDiscountedCosts ∧
    (secondCall conf s).2.1.mRegionalCostCurves =
      (firstCall conf s).2.1.mRegionalCostCurves ∧
    (secondCall conf s).2.1.mPeriodCostCurves = (firstCall conf s).2.1.mPeriodCostCurves ∧
    (secondCall conf s).1 = (firstCall conf s).1 ∧
    (secondCall conf s).2.1.mGlobalCost = 2 * (firstCall conf s).2.1.mGlobalCost ∧
    (secondCall conf s).2.1.mGlobalDiscountedCost =
      2 * (firstCall conf s).2.1.mGlobalDiscountedCost := by
  have h0 : (s.getPrice (TotalPolicyCostCalculator.create conf).mGHGName "USA" 1).isSome := h
  have hg1 : (firstCall conf s).2.1.mGHGName = conf.abatedGas :=
    calcACC_mGHGName conf s _ h0
  have hn1 : (firstCall conf s).2.1.mNumPoints = conf.numPoints :=
    calcACC_mNumPoints conf s _ h0
  have h1 : (s.getPrice (firstCall conf s).2.1.mGHGName "USA" 1).isSome := by
    rw [hg1]
    exact h
  have hpcs : pipelinePcs s (firstCall conf s).2.1 =
      pipelinePcs s (TotalPolicyCostCalculator.create conf) :=
    pipelinePcs_congr s _ _ (hg1.trans rfl) (hn1.trans rfl)
  have hagg : aggEntries s (firstCall conf s).2.1 =
      aggEntries s (TotalPolicyCostCalculator.create conf) := by
    unfold aggEntries
    rw [hpcs]
  have haggK : aggKeys s (firstCall conf s).2.1 =
      aggKeys s (TotalPolicyCostCalculator.create conf) := by
    unfold aggKeys
    rw [hagg]
  have hp1 : (firstCall conf s).2.1.mPeriodCostCurves =
      pipelinePcs s (TotalPolicyCostCalculator.create conf) :=
    calcACC_mPeriodCostCurves conf s _ h0
  have hp2 : (secondCall conf s).2.1.mPeriodCostCurves =
      pipelinePcs s (TotalPolicyCostCalculator.create conf) := by
    show (calculateAbatementCostCurve conf s
      (firstCall conf s).2.1).2.1.mPeriodCostCurves = _
    rw [calcACC_mPeriodCostCurves conf s _ h1, hpcs]
  have hm1 : (firstCall conf s).2.1.mRegionalCosts =
      (aggKeys s (TotalPolicyCostCalculator.create conf)).foldl
        (fun m k => mapInsert m k (regionalCostFor conf s
          (pipelinePcs s (TotalPolicyCostCalculator.create conf)) k)) [] :=
    calcACC_mRegionalCosts conf s _ h0
  have hd1 : (firstCall conf s).2.1.mRegionalDiscountedCosts =
      (aggKeys s (TotalPolicyCostCalculator.create conf)).foldl
        (fun m k => mapInsert m k (discountedCostFor conf s
          (pipelinePcs s (TotalPolicyCostCalculator.create conf)) k)) [] :=
    calcACC_mRegionalDiscountedCosts conf s _ h0
  have hv1 : (firstCall conf s).2.1.mRegionalCostCurves =
      (aggKeys s (TotalPolicyCostCalculator.create conf)).foldl
        (fun m k => mapInsert m k (regionYearCurve s
          (pipelinePcs s (TotalPolicyCostCalculator.create conf)) k)) [] :=
    calcACC_mRegionalCostCurves conf s _ h0
  refine ⟨?_, ?_, ?_, hp2.trans hp1.symm, ?_, ?_, ?_⟩
  · have h2 := calcACC_mRegionalCosts conf s (firstCall conf s).2.1 h1
    rw [haggK, hpcs] at h2
    show (calculateAbatementCostCurve conf s (firstCall conf s).2.1).2.1.mRegionalCosts = _
    rw [h2, hm1]
    apply foldl_mapInsert_id
    intro k hk
    exact foldl_mapInsert_lookup _ _ _ k hk
  · have h2 := calcACC_mRegionalDiscountedCosts conf s (firstCall conf s).2.1 h1
    rw [haggK, hpcs] at h2
    show (calculateAbatementCostCurve conf s
      (firstCall conf s).2.1).2.1.mRegionalDiscountedCosts = _
    rw [h2, hd1]
    apply foldl_mapInsert_id
    intro k hk
    exact foldl_mapInsert_lookup _ _ _ k hk
  · have h2 := calcACC_mRegionalCostCurves conf s (firstCall conf s).2.1 h1
    rw [haggK, hpcs] at h2
    show (calculateAbatementCostCurve conf s
      (firstCall conf s).2.1).2.1.mRegionalCostCurves = _
    rw [h2, hv1]
    apply foldl_mapInsert_id
    intro k hk
    exact foldl_mapInsert_lookup _ _ _ k hk
  · have hs2 : (secondCall conf s).1 =
        (List.range (firstCall conf s).2.1.mNumPoints).all s.runSuccess :=
      calcACC_success conf s _ h1
    rw [hn1] at hs2
    have hs1 : (firstCall conf s).1 = (List.range conf.numPoints).all s.runSuccess :=
      calcACC_success conf s _ h0
    exact hs2.trans hs1.symm
  · have hG1 := calcACC_mGlobalCost conf s (TotalPolicyCostCalculator.create conf) h0
    have hG2 := calcACC_mGlobalCost conf s (firstCall conf s).2.1 h1
    rw [hagg, hpcs] at hG2
    show (calculateAbatementCostCurve conf s (firstCall conf s).2.1).2.1.mGlobalCost = _
    rw [hG2]
    rw [show (firstCall conf s).2.1.mGlobalCost =
      (calculateAbatementCostCurve conf s
        (TotalPolicyCostCalculator.create conf)).2.1.mGlobalCost from rfl]
    rw [hG1, show (TotalPolicyCostCalculator.create conf).mGlobalCost = 0 from rfl]
    ring
  · have hG1 := calcACC_mGlobalDiscountedCost conf s
      (TotalPolicyCostCalculator.create conf) h0
    have hG2 := calcACC_mGlobalDiscountedCost conf s (firstCall conf s).2.1 h1
    rw [hagg, hpcs] at hG2
    show (calculateAbatementCostCurve conf s
      (firstCall conf s).2.1).2.1.mGlobalDiscountedCost = _
    rw [hG2]
    rw [show (firstCall conf s).2.1.mGlobalDiscountedCost =
      (calculateAbatementCostCurve conf s
        (TotalPolicyCostCalculator.create conf)).2.1.mGlobalDiscountedCost from rfl]
    rw [hG1,
      show (TotalPolicyCostCalculator.create conf).mGlobalDiscountedCost = 0 from rfl]
    ring

/-- C7 counterexample: the claim as stated is false on the code.  On the
concrete world the first call leaves a global cost of 240 and the second
call on the same unmodified facade state leaves 480: the global results of
the two invocations are not numerically identical. -/
theorem C7_counterexample :
    (firstCall wConf wS).2.1.mGlobalCost = 240 ∧
    (secondCall wConf wS).2.1.mGlobalCost = 480 ∧
    (480 : ℚ) ≠ 240 := by
  refine ⟨by decide, by decide, by decide⟩

/-- C7 witness: the amended statement on the concrete world — per-region
results coincide, global totals double. -/
theorem C7_witness :
    (wS.getPrice wConf.abatedGas "USA" 1).isSome ∧
    (secondCall wConf wS).2.1.mRegionalCosts = (firstCall wConf wS).2.1.mRegionalCosts ∧
    (secondCall wConf wS).2.1.mGlobalCost = 2 * (firstCall wConf wS).2.1.mGlobalCost :=
  ⟨by decide,
    (C7_second_call_accumulates_globals wConf wS (by decide)).1,
    (C7_second_call_accumulates_globals wConf wS (by decide)).2.2.2.2.2.1⟩
